import Mathlib

/-!
# A shallow embedding of the tslox interpreter (scanner, parser, evaluator)

This file embeds, in Lean, the data model and the operations of the
tslox tree-walking interpreter for the Lox language:

* `src/tokenType.ts` / `src/token.ts`  — tokens (the `TokenType` enum is
  reconstructed from its uses; the file itself is not in the snapshot);
* `src/ast.ts`                          — expression / statement nodes
  (the snapshot carries earlier revisions of `ast.ts`; the node shapes
  embedded here are the ones consumed by the final interpreter in
  `src/lox.js`, e.g. `TernaryExpr.condition/thenArm/elseArm`,
  `SuperExpr.keyword/method`, `ClassStmt.superclass`);
* `src/scanner.ts`                      — the scanner;
* `src/parser.ts`                       — the recursive-descent parser;
* `src/environment.ts`                  — scope frames;
* `src/types.ts`                        — runtime values, `LoxFunction`,
  `LoxClass`, `LoxInstance`;
* the `Interpreter` class of `src/lox.js` — the evaluator.

Modelling conventions, fixed once here:

* Lox numbers are IEEE-754 doubles in the source.  No claim in this
  development depends on rounding or overflow, so numbers are embedded
  as `Option ℚ` (`JsNum`), `none` standing for JavaScript's `NaN`
  (which the evaluator can produce via `Number(...)` coercion on
  non-numeric operands).  Arithmetic propagates `NaN`; comparisons
  with `NaN` are false, as in JavaScript.
* JavaScript's `undefined` is a first-class value of the embedding
  (`LoxValue.vundefined`): it is produced by reading an absent key of a
  `Record`/`Map` and by the evaluator's catch-all in
  `LoxFunction.call`.
* Mutable heap objects (scope frames, instances) live in an explicit
  store (`St`); environment references are indices into it.  The
  interpreter's "current environment" field is threaded as an explicit
  argument, which also models the `finally` restoration of
  `executeBlock` (the caller keeps its own index).
* JavaScript `Record<string, _>` objects and `Map`s are embedded as
  association lists keyed by `String` (first binding wins, assignment
  replaces the first binding or appends).  Inherited
  `Object.prototype` keys of a `Record` (such as `"toString"`) are not
  modelled; no claim and no concrete input below touches them.  For
  the `in` operator applied to a `Map` *object* — which consults the
  prototype chain and never the entries — the prototype key set *is*
  modelled (`jsInMapObject`), because `LoxClass.findMethod` depends on
  it.
* Exceptions are values: `Sig` is a thrown JavaScript exception
  (a Lox `RuntimeError`, a `LoxFunctionReturn`, or a host-level
  `TypeError`-like failure), and every evaluator function returns an
  `Except` over it.  Thrown exceptions carry the store, since heap
  mutations performed before a throw persist in JavaScript.
* Loops and recursion are driven by an explicit fuel parameter;
  running out of fuel is a distinct outcome (`RunErr.fuel`) that no
  embedded `catch` intercepts, so theorems quantified over fuel never
  mistake non-termination for a result.
-/

/-- `TokenType` enum, reconstructed from its uses across the sources
(the `src/tokenType.ts` file is absent from the snapshot). -/
inductive TokenType where
  | LEFT_PAREN | RIGHT_PAREN | LEFT_BRACE | RIGHT_BRACE
  | COMMA | DOT | MINUS | PLUS | SEMICOLON | SLASH | STAR
  | BANG | BANG_EQUAL | EQUAL | EQUAL_EQUAL
  | GREATER | GREATER_EQUAL | LESS | LESS_EQUAL
  | IDENTIFIER | STRING | NUMBER
  | AND | CLASS | ELSE | FALSE | FUN | FOR | IF | NIL | OR
  | PRINT | RETURN | SUPER | THIS | TRUE | VAR | WHILE
  | EOF
deriving DecidableEq, Repr

/-- Literal payload of a token (`src/token.ts`: `literal: null | Object`,
in practice a number or a string). -/
inductive Literal where
  | num (n : ℚ)
  | str (s : String)
deriving DecidableEq, Repr

/-- `src/token.ts`: a token. -/
structure Token where
  type : TokenType
  lexeme : String
  literal : Option Literal
  line : Nat
deriving DecidableEq, Repr

/- AST nodes (`src/ast.ts`; shapes as consumed by `src/lox.js`).
`FunctionStmt` is the node shared by function declarations and class
methods. -/
mutual
inductive Expr where
  | binary (left : Expr) (operator : Token) (right : Expr)
  | grouping (expression : Expr)
  | literal (value : Literal')
  | unary (operator : Token) (right : Expr)
  | variableE (name : Token)
  | assign (name : Token) (value : Expr)
  | logical (left : Expr) (operator : Token) (right : Expr)
  | call (callee : Expr) (paren : Token) (args : List Expr)
  | get (object : Expr) (name : Token)
  | set (object : Expr) (name : Token) (value : Expr)
  | thisE (keyword : Token)
  | superE (keyword : Token) (method : Token)
  | ternary (condition : Expr) (thenArm : Expr) (elseArm : Expr)

inductive Literal' where
  | nilL
  | boolL (b : Bool)
  | numL (n : ℚ)
  | strL (s : String)

inductive FunctionStmt where
  | mk (name : Token) (params : List Token) (body : List Stmt)

inductive Stmt where
  | expression (expression : Expr)
  | print (expression : Expr)
  | varDecl (name : Token) (initializer : Option Expr)
  | block (statements : List Stmt)
  | ifS (condition : Expr) (thenBranch : Stmt) (elseBranch : Option Stmt)
  | whileS (condition : Expr) (body : Stmt)
  | funDecl (decl : FunctionStmt)
  | ret (keyword : Token) (value : Option Expr)
  | classDecl (name : Token) (superclass : Option Expr) (methods : List FunctionStmt)
end

def FunctionStmt.name : FunctionStmt → Token
  | .mk n _ _ => n

def FunctionStmt.params : FunctionStmt → List Token
  | .mk _ p _ => p

def FunctionStmt.body : FunctionStmt → List Stmt
  | .mk _ _ b => b

/-- JavaScript double restricted to the values this development needs:
`none` is `NaN`, `some q` a finite rational double. -/
def JsNum := Option ℚ
deriving DecidableEq, Repr

/- Runtime values (`src/types.ts`: `LoxObject`), plus JavaScript's
`undefined`, which the source can produce (see module comment).
`vinst` is a reference into the instance store; `vclock` is the
native `clock` function. -/
mutual
inductive LoxValue where
  | vnil
  | vundefined
  | vbool (b : Bool)
  | vnum (n : JsNum)
  | vstr (s : String)
  | vfun (f : LoxFunction)
  | vclass (c : LoxClass)
  | vinst (i : Nat)
  | vclock

/-- `src/types.ts` `LoxFunction`: declaration node, closure frame
reference, `isInitializer` flag. -/
inductive LoxFunction where
  | mk (declaration : FunctionStmt) (closure : Nat) (isInitializer : Bool)

/-- `src/types.ts` `LoxClass`: name, optional superclass, method map. -/
inductive LoxClass where
  | mk (name : String) (superclass : Option LoxClass)
       (methods : List (String × LoxFunction))
end

def LoxFunction.declaration : LoxFunction → FunctionStmt
  | .mk d _ _ => d

def LoxFunction.closure : LoxFunction → Nat
  | .mk _ c _ => c

def LoxFunction.isInitializer : LoxFunction → Bool
  | .mk _ _ b => b

def LoxClass.name : LoxClass → String
  | .mk n _ _ => n

def LoxClass.superclass : LoxClass → Option LoxClass
  | .mk _ s _ => s

def LoxClass.methods : LoxClass → List (String × LoxFunction)
  | .mk _ _ m => m

/-- Association-list read modelling `record[key]` / `map.get(key)`:
first binding wins, absent key gives `none` (JS `undefined`). -/
def recGet {α : Type} (m : List (String × α)) (k : String) : Option α :=
  match m with
  | [] => none
  | (k', v) :: rest => if k' = k then some v else recGet rest k

/-- Association-list write modelling `record[key] = v` / `map.set(key, v)`:
replaces the first binding for the key, or appends a new one. -/
def recSet {α : Type} (m : List (String × α)) (k : String) (v : α) :
    List (String × α) :=
  match m with
  | [] => [(k, v)]
  | (k', v') :: rest =>
      if k' = k then (k', v) :: rest else (k', v') :: recSet rest k v

/-- Property names found on the prototype chain of a JavaScript `Map`
object (`Map.prototype` then `Object.prototype`).  The expression
`name in someMap` is true exactly for these names — never for the
map's own entries.  `LoxClass.findMethod` uses `in` on a `Map`. -/
def jsInMapObject (name : String) : Bool :=
  name ∈ ["get", "set", "has", "delete", "clear", "forEach", "entries",
          "keys", "values", "size", "constructor", "toString",
          "toLocaleString", "valueOf", "hasOwnProperty", "isPrototypeOf",
          "propertyIsEnumerable", "__proto__", "__defineGetter__",
          "__defineSetter__", "__lookupGetter__", "__lookupSetter__"]

/-- `src/types.ts` `LoxClass.findMethod`:
```ts
findMethod(name: string): LoxFunction {
  if (name in this.methods) return this.methods.get(name)!;
  if (this.superclass) return this.superclass.findMethod(name);
  return this.methods.get(name)!;
}
```
`this.methods` is a `Map`, so `name in this.methods` tests the Map
*object's* prototype properties (`jsInMapObject`), not the entries.
The trailing `!` is a compile-time assertion only; at runtime an
absent entry yields `undefined`, embedded as `none`. -/
def LoxClass.findMethod : LoxClass → String → Option LoxFunction
  | .mk _ sup methods, name =>
      if jsInMapObject name then recGet methods name
      else
        match sup with
        | some s => LoxClass.findMethod s name
        | none => recGet methods name

/-- A scope frame (`src/environment.ts` `Environment`): a
`Record<string, LoxObject>` of values plus an optional enclosing
frame reference. -/
structure Frame where
  values : List (String × LoxValue)
  enclosing : Option Nat
deriving Inhabited

/-- A class instance (`src/types.ts` `LoxInstance`): its class and its
mutable field map. -/
structure Inst where
  klass : LoxClass
  fields : List (String × LoxValue)

/-- The heap: scope frames and instances, plus the lines written to the
host output sink by `print`.  Frame `0` is the globals frame. -/
structure St where
  envs : List Frame
  insts : List Inst
  output : List String

def St.frame (σ : St) (e : Nat) : Frame := σ.envs.getD e default

def St.setFrame (σ : St) (e : Nat) (f : Frame) : St :=
  { σ with envs := σ.envs.set e f }

namespace Environment

/-- `Environment.ancestor`: walk `distance` enclosing links without any
check.  `none` means the walk ran off the chain, in which case the
JavaScript original dereferences `null` and crashes with a host
`TypeError`. -/
def ancestor (σ : St) (e : Nat) : Nat → Option Nat
  | 0 => some e
  | d + 1 =>
      match (σ.frame e).enclosing with
      | some e' => ancestor σ e' d
      | none => none

/-- `Environment.getAt`: `this.ancestor(distance).values[name]` — no
existence check on the name; an absent name reads as `undefined`.
`none` is the host crash of an overlong walk. -/
def getAt (σ : St) (e : Nat) (d : Nat) (name : String) : Option LoxValue :=
  (ancestor σ e d).map fun a => (recGet (σ.frame a).values name).getD .vundefined

/-- `Environment.assignAt`: write the binding in the `distance`-th
ancestor unconditionally, creating it if absent. -/
def assignAt (σ : St) (e : Nat) (d : Nat) (name : String) (v : LoxValue) :
    Option St :=
  (ancestor σ e d).map fun a =>
    σ.setFrame a { σ.frame a with values := recSet (σ.frame a).values name v }

/-- `Environment.define`: unconditional write in this very frame. -/
def define (σ : St) (e : Nat) (name : String) (v : LoxValue) : St :=
  σ.setFrame e { σ.frame e with values := recSet (σ.frame e).values name v }

/-- `Environment.get`: chain-walking read; a name found nowhere raises
`RuntimeError` "Undefined variable 'x'" (no trailing period in the
source).  The source recurses through heap references; the embedding
bounds that recursion by fuel, `none` meaning the fuel ran out (which
a run on an acyclic chain with enough fuel never does). -/
def envGet (fuel : Nat) (σ : St) (e : Nat) (name : String) :
    Option (Except String LoxValue) :=
  match fuel with
  | 0 => none
  | fuel + 1 =>
      if (recGet (σ.frame e).values name).isSome then
        some (.ok ((recGet (σ.frame e).values name).getD .vundefined))
      else
        match (σ.frame e).enclosing with
        | some e' => envGet fuel σ e' name
        | none => some (.error s!"Undefined variable '{name}'")

/-- `Environment.assign`: chain-walking write; a name found nowhere
raises `RuntimeError` "Undefined variable 'x'." (with a trailing
period in the source). -/
def envAssign (fuel : Nat) (σ : St) (e : Nat) (name : String) (v : LoxValue) :
    Option (Except String St) :=
  match fuel with
  | 0 => none
  | fuel + 1 =>
      if (recGet (σ.frame e).values name).isSome then
        some (.ok (σ.setFrame e
          { σ.frame e with values := recSet (σ.frame e).values name v }))
      else
        match (σ.frame e).enclosing with
        | some e' => envAssign fuel σ e' name v
        | none => some (.error s!"Undefined variable '{name}'.")

end Environment

namespace Scanner

/-- Scanner state (`src/scanner.ts`): the source as a character buffer,
the emitted tokens, the `start`/`current` cursors, the 1-based line
counter, and the messages reported through `error(line, msg)`. -/
structure ScanSt where
  source : List Char
  tokens : List Token
  start : Nat
  current : Nat
  line : Nat
  errors : List String

def isAtEnd (st : ScanSt) : Bool := st.current ≥ st.source.length

/-- `source.charAt(i)`; the default is unreachable in all guarded uses. -/
def charAt (st : ScanSt) (i : Nat) : Char := st.source.getD i '\x00'

/-- `advance()`: consume and return the next character. -/
def advance (st : ScanSt) : Char × ScanSt :=
  (charAt st st.current, { st with current := st.current + 1 })

/-- `peek()`: lookahead, `"\0"` at end of input. -/
def peek (st : ScanSt) : Char :=
  if isAtEnd st then '\x00' else charAt st st.current

/-- `peekNext()`. -/
def peekNext (st : ScanSt) : Char :=
  if st.current + 1 ≥ st.source.length then '\x00' else charAt st (st.current + 1)

/-- `match(expected)`: conditional advance. -/
def matchC (expected : Char) (st : ScanSt) : Bool × ScanSt :=
  if isAtEnd st then (false, st)
  else if charAt st st.current ≠ expected then (false, st)
  else (true, { st with current := st.current + 1 })

/-- `source.substring(start, current)`, the pending lexeme. -/
def lexeme (st : ScanSt) : String :=
  String.mk ((st.source.drop st.start).take (st.current - st.start))

def addTokenLit (type : TokenType) (literal : Option Literal) (st : ScanSt) :
    ScanSt :=
  { st with tokens := st.tokens ++ [⟨type, lexeme st, literal, st.line⟩] }

def addToken (type : TokenType) (st : ScanSt) : ScanSt :=
  addTokenLit type none st

def report (msg : String) (st : ScanSt) : ScanSt :=
  { st with errors := st.errors ++ [msg] }

def isDigit (c : Char) : Bool := '0' ≤ c ∧ c ≤ '9'

def isAlpha (c : Char) : Bool :=
  ('a' ≤ c ∧ c ≤ 'z') ∨ ('A' ≤ c ∧ c ≤ 'Z') ∨ c = '_'

def isAlphaNumeric (c : Char) : Bool := isAlpha c || isDigit c

/-- The keyword table of `src/scanner.ts`. -/
def keywords : List (String × TokenType) :=
  [("and", .AND), ("class", .CLASS), ("else", .ELSE), ("false", .FALSE),
   ("for", .FOR), ("fun", .FUN), ("if", .IF), ("nil", .NIL), ("or", .OR),
   ("print", .PRINT), ("return", .RETURN), ("super", .SUPER),
   ("this", .THIS), ("true", .TRUE), ("var", .VAR), ("while", .WHILE)]

/-- The `//` line-comment loop: consume to end of line.  Fuel exceeds
the source length in every use, so `none` (fuel exhausted) is
unreachable there. -/
def lineComment : Nat → ScanSt → Option ScanSt
  | 0, _ => none
  | fuel + 1, st =>
      if peek st ≠ '\n' ∧ ¬ isAtEnd st then lineComment fuel (advance st).2
      else some st

/-- The loop of `Scanner.blockComment`, transcribed with JavaScript's
`&&` short-circuit and the side effects of `match` made explicit:
```ts
while (openingCommentToken > 0 && !this.isAtEnd()) {
  if (this.peek() == "\n") this.line++;
  this.advance();
  if (this.match("/") && this.match("*")) openingCommentToken++;
  if (this.match("*") && this.match("/")) openingCommentToken--;
}
```
-/
def blockCommentLoop : Nat → Nat → ScanSt → Option ScanSt
  | 0, _, _ => none
  | fuel + 1, depth, st =>
      if depth > 0 ∧ ¬ isAtEnd st then
        let st1 := if peek st = '\n' then { st with line := st.line + 1 } else st
        let st2 := (advance st1).2
        let p1 := matchC '/' st2
        let q1 :=
          if p1.1 then
            let p2 := matchC '*' p1.2
            (p2.2, if p2.1 then depth + 1 else depth)
          else (p1.2, depth)
        let p3 := matchC '*' q1.1
        let q2 :=
          if p3.1 then
            let p4 := matchC '/' p3.2
            (p4.2, if p4.1 then q1.2 - 1 else q1.2)
          else (p3.2, q1.2)
        blockCommentLoop fuel q2.2 q2.1
      else some st

/-- `Scanner.blockComment`: run the loop from depth 1, then report
"Unterminated comment." if the scan stopped at end of input. -/
def blockComment (fuel : Nat) (st : ScanSt) : Option ScanSt := do
  let st' ← blockCommentLoop fuel 1 st
  if isAtEnd st' then some (report "Unterminated comment." st') else some st'

/-- The loop of `Scanner.string`. -/
def stringLoop : Nat → ScanSt → Option ScanSt
  | 0, _ => none
  | fuel + 1, st =>
      if peek st ≠ '"' ∧ ¬ isAtEnd st then
        let st := if peek st = '\n' then { st with line := st.line + 1 } else st
        stringLoop fuel (advance st).2
      else some st

/-- `Scanner.string`. -/
def stringLex (fuel : Nat) (st : ScanSt) : Option ScanSt := do
  let st ← stringLoop fuel st
  if isAtEnd st then some (report "Unterminated string." st)
  else
    let st := (advance st).2
    let value := String.mk (((st.source.drop (st.start + 1))).take
      (st.current - 1 - (st.start + 1)))
    some (addTokenLit .STRING (some (.str value)) st)

def digitLoop : Nat → ScanSt → Option ScanSt
  | 0, _ => none
  | fuel + 1, st =>
      if isDigit (peek st) then digitLoop fuel (advance st).2 else some st

/-- `parseFloat` on a scanner number lexeme (digits, optionally a dot
and more digits): exact rational value.  Rounding to double is not
modelled; no claim depends on it. -/
def lexemeToRat (cs : List Char) : ℚ :=
  let intPart := cs.takeWhile fun c => isDigit c
  let rest := cs.dropWhile fun c => isDigit c
  let intVal : ℚ := (intPart.foldl (fun acc c => acc * 10 + (c.toNat - 48)) 0 : Nat)
  match rest with
  | '.' :: frac =>
      intVal +
        ((frac.foldl (fun acc c => acc * 10 + (c.toNat - 48)) 0 : Nat) : ℚ) /
          ((10 : ℚ) ^ frac.length)
  | _ => intVal

/-- `Scanner.number`. -/
def numberLex (fuel : Nat) (st : ScanSt) : Option ScanSt := do
  let st ← digitLoop fuel st
  let st ←
    if peek st = '.' ∧ isDigit (peekNext st) then
      digitLoop fuel (advance st).2
    else pure st
  some (addTokenLit .NUMBER (some (.num (lexemeToRat
    ((st.source.drop st.start).take (st.current - st.start))))) st)

def identLoop : Nat → ScanSt → Option ScanSt
  | 0, _ => none
  | fuel + 1, st =>
      if isAlphaNumeric (peek st) then identLoop fuel (advance st).2 else some st

/-- `Scanner.identifier`: maximal munch, then the keyword table. -/
def identifierLex (fuel : Nat) (st : ScanSt) : Option ScanSt := do
  let st ← identLoop fuel st
  let text := lexeme st
  some (addToken ((recGet keywords text).getD .IDENTIFIER) st)

/-- `Scanner.scanToken`: dispatch on the first character of a lexeme. -/
def scanToken (fuel : Nat) (st : ScanSt) : Option ScanSt :=
  let p := advance st
  let c := p.1
  let st := p.2
  match c with
  | '(' => some (addToken .LEFT_PAREN st)
  | ')' => some (addToken .RIGHT_PAREN st)
  | '{' => some (addToken .LEFT_BRACE st)
  | '}' => some (addToken .RIGHT_BRACE st)
  | ',' => some (addToken .COMMA st)
  | '.' => some (addToken .DOT st)
  | '-' => some (addToken .MINUS st)
  | '+' => some (addToken .PLUS st)
  | ';' => some (addToken .SEMICOLON st)
  | '*' => some (addToken .STAR st)
  | '!' =>
      let q := matchC '=' st
      some (addToken (if q.1 then .BANG_EQUAL else .BANG) q.2)
  | '=' =>
      let q := matchC '=' st
      some (addToken (if q.1 then .EQUAL_EQUAL else .EQUAL) q.2)
  | '<' =>
      let q := matchC '=' st
      some (addToken (if q.1 then .LESS_EQUAL else .LESS) q.2)
  | '>' =>
      let q := matchC '=' st
      some (addToken (if q.1 then .GREATER_EQUAL else .GREATER) q.2)
  | '/' =>
      let q := matchC '/' st
      if q.1 then lineComment fuel q.2
      else
        let q2 := matchC '*' q.2
        if q2.1 then blockComment fuel q2.2
        else some (addToken .SLASH q.2)
  | ' ' => some st
  | '\r' => some st
  | '\t' => some st
  | '\n' => some { st with line := st.line + 1 }
  | '"' => stringLex fuel st
  | c =>
      if isDigit c then numberLex fuel st
      else if isAlpha c then identifierLex fuel st
      else some (report "Unexpected character." st)

def scanLoop : Nat → ScanSt → Option ScanSt
  | 0, _ => none
  | fuel + 1, st =>
      if isAtEnd st then some st
      else do
        let st' ← scanToken (st.source.length + 1) { st with start := st.current }
        scanLoop fuel st'

/-- `Scanner.scanTokens`: scan the whole source, then append the `EOF`
sentinel.  Returns the tokens and the reported error messages. -/
def scanTokens (src : String) : Option (List Token × List String) := do
  let st ← scanLoop (src.length + 1)
    ⟨src.data, [], 0, 0, 1, []⟩
  some (st.tokens ++ [⟨.EOF, "", none, st.line⟩], st.errors)

end Scanner

namespace Parser

/-- Parser state (`src/parser.ts`): the token buffer, the `current`
cursor, and the error messages reported through `loxError`. -/
structure PSt where
  tokens : List Token
  current : Nat
  reports : List String
deriving Repr

/-- A `ParseError` value (`src/error.ts`). -/
structure PErrV where
  message : String
  line : Nat
  whereS : String
deriving DecidableEq, Repr

/-- Outcome of a parse function: a value with the updated state, a
thrown `ParseError` (carrying the state, whose reports persist), or
fuel exhaustion (a modelling artifact no `catch` intercepts). -/
inductive PFail where
  | thrown (e : PErrV) (st : PSt)
  | fuel
deriving Repr

/-- Shorthand for parse outcomes (spelled out in signatures so that
`do` notation elaborates in the `Except PFail` monad). -/
abbrev PRes (α : Type) : Type := Except PFail (α × PSt)

def eofTok : Token := ⟨.EOF, "", none, 0⟩

def peek (st : PSt) : Token := st.tokens.getD st.current eofTok

def previous (st : PSt) : Token := st.tokens.getD (st.current - 1) eofTok

def isAtEnd (st : PSt) : Bool := (peek st).type = .EOF

def checkT (type : TokenType) (st : PSt) : Bool :=
  if isAtEnd st then false else (peek st).type = type

def advanceP (st : PSt) : Token × PSt :=
  let st' := if isAtEnd st then st else { st with current := st.current + 1 }
  (previous st', st')

/-- `Parser.match(...types)`: conditional advance on any of the types. -/
def matchT (types : List TokenType) (st : PSt) : Bool × PSt :=
  if types.any (fun t => checkT t st) then (true, (advanceP st).2)
  else (false, st)

/-- `Parser.error(token, message)`: report through `loxError` (recorded
in `reports`) and *return* a `ParseError`; the caller decides whether
to throw it. -/
def mkError (st : PSt) (tok : Token) (msg : String) : PSt × PErrV :=
  let st := { st with reports := st.reports ++ [msg] }
  if tok.type = .EOF then (st, ⟨msg, tok.line, "at end"⟩)
  else (st, ⟨msg, tok.line, s!"at '{tok.lexeme}'"⟩)

/-- `Parser.consume(type, message)`. -/
def consume (type : TokenType) (msg : String) (st : PSt) : Except PFail (Token × PSt) :=
  if checkT type st then .ok (advanceP st)
  else
    let p := mkError st (peek st) msg
    .error (.thrown p.2 p.1)

/- The expression grammar of `src/parser.ts`.  The mutually recursive
methods are packaged as one fuel-indexed tuple of functions
(`mkExprP`, plain structural recursion on the fuel), so that concrete
parses reduce definitionally; the named wrappers below restore the
source's one-method-per-production shape.  Every recursive call in
the source corresponds to a call at the predecessor fuel. -/
structure ExprP where
  expressionF : PSt → Except PFail (Expr × PSt)
  assignmentF : PSt → Except PFail (Expr × PSt)
  orF : PSt → Except PFail (Expr × PSt)
  orLoopF : Expr → PSt → Except PFail (Expr × PSt)
  andF : PSt → Except PFail (Expr × PSt)
  andLoopF : Expr → PSt → Except PFail (Expr × PSt)
  equalityF : PSt → Except PFail (Expr × PSt)
  equalityLoopF : Expr → PSt → Except PFail (Expr × PSt)
  comparisonF : PSt → Except PFail (Expr × PSt)
  comparisonLoopF : Expr → PSt → Except PFail (Expr × PSt)
  termF : PSt → Except PFail (Expr × PSt)
  termLoopF : Expr → PSt → Except PFail (Expr × PSt)
  factorF : PSt → Except PFail (Expr × PSt)
  factorLoopF : Expr → PSt → Except PFail (Expr × PSt)
  unaryF : PSt → Except PFail (Expr × PSt)
  callF : PSt → Except PFail (Expr × PSt)
  callLoopF : Expr → PSt → Except PFail (Expr × PSt)
  finishCallF : Expr → PSt → Except PFail (Expr × PSt)
  argsLoopF : List Expr → PSt → Except PFail (List Expr × PSt)
  primaryF : PSt → Except PFail (Expr × PSt)

def exprPZero : ExprP :=
  ⟨fun _ => .error .fuel, fun _ => .error .fuel, fun _ => .error .fuel,
   fun _ _ => .error .fuel, fun _ => .error .fuel, fun _ _ => .error .fuel,
   fun _ => .error .fuel, fun _ _ => .error .fuel, fun _ => .error .fuel,
   fun _ _ => .error .fuel, fun _ => .error .fuel, fun _ _ => .error .fuel,
   fun _ => .error .fuel, fun _ _ => .error .fuel, fun _ => .error .fuel,
   fun _ => .error .fuel, fun _ _ => .error .fuel, fun _ _ => .error .fuel,
   fun _ _ => .error .fuel, fun _ => .error .fuel⟩

def mkExprP : Nat → ExprP
  | 0 => exprPZero
  | fuel + 1 =>
      let P := mkExprP fuel
      { expressionF := fun st => P.assignmentF st
        -- `Parser.assignment`: parse the left side with `or()`; on `=`,
        -- recursively parse the right side; a `VariableExpr` target
        -- becomes `AssignExpr`, anything else (there is no `GetExpr`
        -- case in the source) reports "Invalid assignment target"
        -- without throwing, and the left expression is returned.
        assignmentF := fun st => do
          let (expr, st) ← P.orF st
          let (m, st) := matchT [.EQUAL] st
          if m then
            let equals := previous st
            let (value, st) ← P.assignmentF st
            match expr with
            | .variableE name => .ok (.assign name value, st)
            | _ =>
                let p := mkError st equals "Invalid assignment target"
                .ok (expr, p.1)
          else .ok (expr, st)
        orF := fun st => do
          let (expr, st) ← P.andF st
          P.orLoopF expr st
        orLoopF := fun expr st =>
          let (m, st) := matchT [.OR] st
          if m then do
            let operator := previous st
            let (right, st) ← P.andF st
            P.orLoopF (.logical expr operator right) st
          else .ok (expr, st)
        andF := fun st => do
          let (expr, st) ← P.equalityF st
          P.andLoopF expr st
        andLoopF := fun expr st =>
          let (m, st) := matchT [.AND] st
          if m then do
            let operator := previous st
            let (right, st) ← P.equalityF st
            P.andLoopF (.logical expr operator right) st
          else .ok (expr, st)
        equalityF := fun st => do
          let (expr, st) ← P.comparisonF st
          P.equalityLoopF expr st
        equalityLoopF := fun expr st =>
          let (m, st) := matchT [.BANG_EQUAL, .EQUAL_EQUAL] st
          if m then do
            let operator := previous st
            let (right, st) ← P.comparisonF st
            P.equalityLoopF (.binary expr operator right) st
          else .ok (expr, st)
        comparisonF := fun st => do
          let (expr, st) ← P.termF st
          P.comparisonLoopF expr st
        comparisonLoopF := fun expr st =>
          let (m, st) := matchT [.GREATER, .GREATER_EQUAL, .LESS, .LESS_EQUAL] st
          if m then do
            let operator := previous st
            let (right, st) ← P.termF st
            P.comparisonLoopF (.binary expr operator right) st
          else .ok (expr, st)
        termF := fun st => do
          let (expr, st) ← P.factorF st
          P.termLoopF expr st
        -- `Parser.term` loop — NOTE (faithful to the source): the right
        -- operand is parsed with `this.term()`, not `this.factor()` as
        -- the grammar comment above it states.
        termLoopF := fun expr st =>
          let (m, st) := matchT [.MINUS, .PLUS] st
          if m then do
            let operator := previous st
            let (right, st) ← P.termF st
            P.termLoopF (.binary expr operator right) st
          else .ok (expr, st)
        factorF := fun st => do
          let (expr, st) ← P.unaryF st
          P.factorLoopF expr st
        -- `Parser.factor` loop — NOTE (faithful to the source): the
        -- right operand is parsed with `this.term()`, not
        -- `this.unary()` as the grammar comment above it states.
        factorLoopF := fun expr st =>
          let (m, st) := matchT [.SLASH, .STAR] st
          if m then do
            let operator := previous st
            let (right, st) ← P.termF st
            P.factorLoopF (.binary expr operator right) st
          else .ok (expr, st)
        unaryF := fun st =>
          let (m, st') := matchT [.BANG, .MINUS] st
          if m then do
            let operator := previous st'
            let (right, st') ← P.unaryF st'
            .ok (.unary operator right, st')
          else P.callF st
        callF := fun st => do
          let (expr, st) ← P.primaryF st
          P.callLoopF expr st
        -- `Parser.call`: suffix loop alternating `(args)` and `.name`.
        callLoopF := fun expr st =>
          let (m, st) := matchT [.LEFT_PAREN] st
          if m then do
            let (expr, st) ← P.finishCallF expr st
            P.callLoopF expr st
          else
            let (m2, st) := matchT [.DOT] st
            if m2 then do
              let (name, st) ←
                consume .IDENTIFIER "Expect property name after '.' ." st
              P.callLoopF (.get expr name) st
            else .ok (expr, st)
        -- `Parser.finishCall`: argument list, with a non-throwing
        -- report past 255 arguments.
        finishCallF := fun callee st => do
          let (args, st) ←
            if checkT .RIGHT_PAREN st then .ok (([] : List Expr), st)
            else P.argsLoopF [] st
          let (paren, st) ← consume .RIGHT_PAREN "Expect ')' after arguments." st
          .ok (.call callee paren args, st)
        argsLoopF := fun args st => do
          let st :=
            if args.length ≥ 255 then
              (mkError st (peek st) "Can't have more than 255 arguments.").1
            else st
          let (arg, st) ← P.expressionF st
          let args := args ++ [arg]
          let (m, st) := matchT [.COMMA] st
          if m then P.argsLoopF args st else .ok (args, st)
        -- `Parser.primary`.  There is no `this`, `super`, or ternary
        -- production in the source parser.
        primaryF := fun st =>
          let (m, st') := matchT [.FALSE] st
          if m then .ok (.literal (.boolL false), st')
          else
            let (m, st') := matchT [.TRUE] st
            if m then .ok (.literal (.boolL true), st')
            else
              let (m, st') := matchT [.NIL] st
              if m then .ok (.literal .nilL, st')
              else
                let (m, st') := matchT [.NUMBER, .STRING] st
                if m then
                  .ok (.literal (match (previous st').literal with
                    | some (.num n) => .numL n
                    | some (.str s) => .strL s
                    | none => .nilL), st')
                else
                  let (m, st') := matchT [.IDENTIFIER] st
                  if m then .ok (.variableE (previous st'), st')
                  else
                    let (m, st') := matchT [.LEFT_PAREN] st
                    if m then do
                      let (expr, st') ← P.expressionF st'
                      let (_, st') ←
                        consume .RIGHT_PAREN "Expect ')' after expression." st'
                      .ok (.grouping expr, st')
                    else
                      let p := mkError st (peek st) "Expect expression"
                      .error (.thrown p.2 p.1) }

/-- `Parser.expression`. -/
def expression (fuel : Nat) (st : PSt) : Except PFail (Expr × PSt) :=
  (mkExprP fuel).expressionF st

/-- `Parser.assignment`. -/
def assignment (fuel : Nat) (st : PSt) : Except PFail (Expr × PSt) :=
  (mkExprP fuel).assignmentF st

/-- `Parser.or`. -/
def orP (fuel : Nat) (st : PSt) : Except PFail (Expr × PSt) :=
  (mkExprP fuel).orF st

/-- `Parser.term`. -/
def term (fuel : Nat) (st : PSt) : Except PFail (Expr × PSt) :=
  (mkExprP fuel).termF st

/-- `Parser.factor`. -/
def factor (fuel : Nat) (st : PSt) : Except PFail (Expr × PSt) :=
  (mkExprP fuel).factorF st

/-- `Parser.unary`. -/
def unaryP (fuel : Nat) (st : PSt) : Except PFail (Expr × PSt) :=
  (mkExprP fuel).unaryF st

def synchronizeLoop : Nat → PSt → Option PSt
  | 0, _ => none
  | fuel + 1, st =>
      if isAtEnd st then some st
      else if (previous st).type = .SEMICOLON then some st
      else
        match (peek st).type with
        | .CLASS => some st
        | .FUN => some st
        | .VAR => some st
        | .FOR => some st
        | .IF => some st
        | .WHILE => some st
        | .PRINT => some st
        | .RETURN => some st
        | _ => synchronizeLoop fuel (advanceP st).2

/-- `Parser.synchronize`: discard tokens to the next statement
boundary. -/
def synchronize : Nat → PSt → Option PSt
  | 0, _ => none
  | fuel + 1, st =>
      let st := (advanceP st).2
      synchronizeLoop fuel st

/- The statement grammar of `src/parser.ts`, packaged the same way as
the expression grammar: one fuel-indexed tuple (`mkStmtP`), with the
named wrappers restoring the source's methods. -/
structure StmtP where
  declarationF : PSt → Except PFail (Option Stmt × PSt)
  statementF : PSt → Except PFail (Stmt × PSt)
  forStatementF : PSt → Except PFail (Stmt × PSt)
  ifStatementF : PSt → Except PFail (Stmt × PSt)
  printStatementF : PSt → Except PFail (Stmt × PSt)
  classDeclarationF : PSt → Except PFail (Stmt × PSt)
  classMethodsLoopF : List FunctionStmt → PSt →
    Except PFail (List FunctionStmt × PSt)
  returnStatementF : PSt → Except PFail (Stmt × PSt)
  varDeclarationF : PSt → Except PFail (Stmt × PSt)
  whileStatementF : PSt → Except PFail (Stmt × PSt)
  expressionStatementF : PSt → Except PFail (Stmt × PSt)
  functionF : String → PSt → Except PFail (FunctionStmt × PSt)
  paramsLoopF : List Token → PSt → Except PFail (List Token × PSt)
  blockF : PSt → Except PFail (List Stmt × PSt)
  blockLoopF : List Stmt → PSt → Except PFail (List Stmt × PSt)

def stmtPZero : StmtP :=
  ⟨fun _ => .error .fuel, fun _ => .error .fuel, fun _ => .error .fuel,
   fun _ => .error .fuel, fun _ => .error .fuel, fun _ => .error .fuel,
   fun _ _ => .error .fuel, fun _ => .error .fuel, fun _ => .error .fuel,
   fun _ => .error .fuel, fun _ => .error .fuel, fun _ _ => .error .fuel,
   fun _ _ => .error .fuel, fun _ => .error .fuel, fun _ _ => .error .fuel⟩

def mkStmtP : Nat → StmtP
  | 0 => stmtPZero
  | fuel + 1 =>
      let P := mkStmtP fuel
      { -- `Parser.declaration`: dispatch on `class` / `fun` / `var`,
        -- with the panic-mode catch: a thrown `ParseError`
        -- synchronizes and yields `null`.
        declarationF := fun st =>
          let run : Except PFail (Stmt × PSt) :=
            let (m, st') := matchT [.CLASS] st
            if m then P.classDeclarationF st'
            else
              let (m, st') := matchT [.FUN] st
              if m then do
                let (f, st') ← P.functionF "function" st'
                .ok (.funDecl f, st')
              else
                let (m, st') := matchT [.VAR] st
                if m then P.varDeclarationF st'
                else P.statementF st'
          match run with
          | .ok (s, st') => .ok (some s, st')
          | .error (.thrown _ stE) =>
              match synchronize fuel stE with
              | some st'' => .ok (none, st'')
              | none => .error .fuel
          | .error .fuel => .error .fuel
        statementF := fun st =>
          let (m, st') := matchT [.FOR] st
          if m then P.forStatementF st'
          else
            let (m, st') := matchT [.IF] st
            if m then P.ifStatementF st'
            else
              let (m, st') := matchT [.PRINT] st
              if m then P.printStatementF st'
              else
                let (m, st') := matchT [.RETURN] st
                if m then P.returnStatementF st'
                else
                  let (m, st') := matchT [.WHILE] st
                  if m then P.whileStatementF st'
                  else
                    let (m, st') := matchT [.LEFT_BRACE] st
                    if m then do
                      let (stmts, st') ← P.blockF st'
                      .ok (.block stmts, st')
                    else P.expressionStatementF st
        -- `Parser.forStatement`: desugar into
        -- `{ init; while (cond) { body; incr; } }`.
        forStatementF := fun st => do
          let (_, st) ← consume .LEFT_PAREN "Expect '(' after 'for'." st
          let (initializer, st) ← (do
            let (m, st') := matchT [.SEMICOLON] st
            if m then (.ok (none, st') : Except PFail (Option Stmt × PSt))
            else
              let (m, st') := matchT [.VAR] st
              if m then do
                let (s, st') ← P.varDeclarationF st'
                .ok (some s, st')
              else do
                let (s, st') ← P.expressionStatementF st
                .ok (some s, st'))
          let (condition, st) ← (do
            if ¬ checkT .SEMICOLON st then do
              let (c, st') ← expression fuel st
              (.ok (some c, st') : Except PFail (Option Expr × PSt))
            else .ok (none, st))
          let (_, st) ← consume .SEMICOLON "Expect ';' after loop condition" st
          let (increment, st) ← (do
            if ¬ checkT .RIGHT_PAREN st then do
              let (c, st') ← expression fuel st
              (.ok (some c, st') : Except PFail (Option Expr × PSt))
            else .ok (none, st))
          let (_, st) ← consume .RIGHT_PAREN "Expect ')' after for clause." st
          let (body, st) ← P.statementF st
          let body :=
            match increment with
            | some incr => Stmt.block [body, .expression incr]
            | none => body
          let condition := condition.getD (.literal (.boolL true))
          let body := Stmt.whileS condition body
          let body :=
            match initializer with
            | some ini => Stmt.block [ini, body]
            | none => body
          .ok (body, st)
        -- `Parser.ifStatment` (sic).
        ifStatementF := fun st => do
          let (_, st) ← consume .LEFT_PAREN "Expect '(' after 'if'." st
          let (condition, st) ← expression fuel st
          let (_, st) ← consume .RIGHT_PAREN "Expect ')', after if condition." st
          let (thenBranch, st) ← P.statementF st
          let (m, st) := matchT [.ELSE] st
          if m then do
            let (elseBranch, st) ← P.statementF st
            .ok (.ifS condition thenBranch (some elseBranch), st)
          else .ok (.ifS condition thenBranch none, st)
        printStatementF := fun st => do
          let (value, st) ← expression fuel st
          let (_, st) ← consume .SEMICOLON "Expect ';' after value." st
          .ok (.print value, st)
        -- `Parser.classDeclaration`:
        --   const name = this.consume(IDENTIFIER, "Expect class name.");
        --   this.consume(LEFT_BRACE, "Expect '{' before class body.");
        --   ... methods ...
        --   return new ClassStmt(name, methods);
        -- There is no superclass (`<`) clause in the source; the
        -- `superclass` slot of the produced node is therefore always
        -- absent.
        classDeclarationF := fun st => do
          let (name, st) ← consume .IDENTIFIER "Expect class name." st
          let (_, st) ← consume .LEFT_BRACE "Expect '\x7b' before class body." st
          let (methods, st) ← P.classMethodsLoopF [] st
          let (_, st) ← consume .RIGHT_BRACE "Expect '\x7d' after class body." st
          .ok (.classDecl name none methods, st)
        classMethodsLoopF := fun acc st =>
          if ¬ checkT .RIGHT_BRACE st ∧ ¬ isAtEnd st then do
            let (f, st) ← P.functionF "method" st
            P.classMethodsLoopF (acc ++ [f]) st
          else .ok (acc, st)
        returnStatementF := fun st => do
          let keyword := previous st
          let (value, st) ← (do
            if ¬ checkT .SEMICOLON st then do
              let (v, st') ← expression fuel st
              (.ok (some v, st') : Except PFail (Option Expr × PSt))
            else .ok (none, st))
          let (_, st) ← consume .SEMICOLON "Expect ';' after return value." st
          .ok (.ret keyword value, st)
        varDeclarationF := fun st => do
          let (name, st) ← consume .IDENTIFIER "Expect variable name." st
          let (m, st) := matchT [.EQUAL] st
          let (initializer, st) ← (do
            if m then do
              let (v, st') ← expression fuel st
              (.ok (some v, st') : Except PFail (Option Expr × PSt))
            else .ok (none, st))
          let (_, st) ←
            consume .SEMICOLON "Expect ';' after variable declaration" st
          .ok (.varDecl name initializer, st)
        whileStatementF := fun st => do
          let (_, st) ← consume .LEFT_PAREN "Expect '(' after 'while'." st
          let (condition, st) ← expression fuel st
          let (_, st) ← consume .RIGHT_PAREN "Expect ')' after condition." st
          let (body, st) ← P.statementF st
          .ok (.whileS condition body, st)
        expressionStatementF := fun st => do
          let (expr, st) ← expression fuel st
          let (_, st) ← consume .SEMICOLON "Expect ';' after expression." st
          .ok (.expression expr, st)
        -- `Parser.function(kind)`.
        functionF := fun kind st => do
          let (name, st) ← consume .IDENTIFIER s!"Expect {kind} name." st
          let (_, st) ← consume .LEFT_PAREN s!"Expect '(' after {kind} name." st
          let (parameters, st) ← (do
            if ¬ checkT .RIGHT_PAREN st then P.paramsLoopF [] st
            else (.ok ([], st) : Except PFail (List Token × PSt)))
          let (_, st) ← consume .RIGHT_PAREN "Expect ')' after parameters." st
          let (_, st) ← consume .LEFT_BRACE s!"Expect '\x7b' before {kind} body." st
          let (body, st) ← P.blockF st
          .ok (.mk name parameters body, st)
        paramsLoopF := fun acc st => do
          let st :=
            if acc.length ≥ 255 then
              (mkError st (peek st) "can't have more than 255 parameters").1
            else st
          let (p, st) ← consume .IDENTIFIER "Expect parameters name" st
          let acc := acc ++ [p]
          let (m, st) := matchT [.COMMA] st
          if m then P.paramsLoopF acc st else .ok (acc, st)
        -- `Parser.block`: declarations up to the closing brace, which
        -- it consumes.
        blockF := fun st => do
          let (stmts, st) ← P.blockLoopF [] st
          let (_, st) ← consume .RIGHT_BRACE "Expect '\x7d' after block." st
          .ok (stmts, st)
        blockLoopF := fun acc st =>
          if ¬ checkT .RIGHT_BRACE st ∧ ¬ isAtEnd st then do
            let (s, st) ← P.declarationF st
            -- `statements.push(this.declaration()!)`: a null from panic
            -- recovery is pushed as-is inside a block; the list type
            -- here drops nulls (no claim exercises a recovered-inside-
            -- block parse).
            match s with
            | some s' => P.blockLoopF (acc ++ [s']) st
            | none => P.blockLoopF acc st
          else .ok (acc, st) }

/-- `Parser.declaration`. -/
def declaration (fuel : Nat) (st : PSt) : Except PFail (Option Stmt × PSt) :=
  (mkStmtP fuel).declarationF st

/-- `Parser.statement`. -/
def statement (fuel : Nat) (st : PSt) : Except PFail (Stmt × PSt) :=
  (mkStmtP fuel).statementF st

/-- `Parser.classDeclaration`. -/
def classDeclaration (fuel : Nat) (st : PSt) : Except PFail (Stmt × PSt) :=
  (mkStmtP fuel).classDeclarationF st

/-- `Parser.function(kind)`. -/
def functionP (fuel : Nat) (kind : String) (st : PSt) :
    Except PFail (FunctionStmt × PSt) :=
  (mkStmtP fuel).functionF kind st

/-- `Parser.parse`: statements (possibly `null` after panic recovery)
up to `EOF`. -/
def parseLoop : Nat → List (Option Stmt) → PSt →
    Except PFail (List (Option Stmt) × PSt)
  | 0, _, _ => .error .fuel
  | fuel + 1, acc, st =>
      if ¬ isAtEnd st then do
        let (s, st) ← declaration fuel st
        parseLoop fuel (acc ++ [s]) st
      else .ok (acc, st)

def parse (tokens : List Token) : Except PFail (List (Option Stmt) × PSt) :=
  parseLoop (tokens.length * 8 + 8) [] ⟨tokens, 0, []⟩

end Parser

namespace Interp

/-- A thrown JavaScript exception, as seen by the evaluator:
a Lox `RuntimeError` (token + message), the `LoxFunctionReturn`
control signal, or a host-level failure (such as the `TypeError` from
dereferencing `null`/`undefined`), which is neither of the first two
but equally catchable by a JavaScript `catch`. -/
inductive Sig where
  | rte (tok : Token) (msg : String)
  | retSig (v : LoxValue)
  | host (msg : String)

/-- Evaluator outcome tag: a thrown exception carrying the store at
throw time (heap mutations persist), or fuel exhaustion — a
modelling artifact that no embedded `catch` intercepts. -/
inductive Fail where
  | sig (s : Sig) (σ : St)
  | fuel

/-- The resolver's `locals` map (`Map<Expr, number>` keyed by node
identity), read-only during evaluation, embedded as a function.  The
concrete programs below give every variable-like node a unique
structural form, so structural keying coincides with identity
keying. -/
def Locals : Type := Expr → Option Nat

/-- `Interpreter.isTruthy`: `null` is falsey, booleans are themselves,
everything else — including `undefined`, `0` and `""` — is truthy. -/
def isTruthy : LoxValue → Bool
  | .vnil => false
  | .vbool b => b
  | _ => true

/-- JavaScript `Boolean(x)` (used by `visitTernaryExpr`): falsy values
are `false`, `null`, `undefined`, `0`, `NaN` and `""`. -/
def jsBooleanCoerce : LoxValue → Bool
  | .vnil => false
  | .vundefined => false
  | .vbool b => b
  | .vnum none => false
  | .vnum (some q) => q ≠ 0
  | .vstr s => s ≠ ""
  | _ => true

/-- JavaScript `ToNumber` on a string (used by `Number(...)` coercion):
whitespace-trimmed empty string is `0`, an optionally signed decimal
numeral is its value, anything else is `NaN`.  (Exponents and hex
forms of full JavaScript are not needed by any claim and map to
`NaN` here.) -/
def jsStrToNum (s : String) : JsNum :=
  let t := s.trim
  if t = "" then some 0
  else
    let p : Int × List Char :=
      match t.data with
      | '-' :: r => (-1, r)
      | '+' :: r => (1, r)
      | cs => (1, cs)
    let ip := p.2.takeWhile Char.isDigit
    let rest := p.2.dropWhile Char.isDigit
    let ipVal : ℚ := (ip.foldl (fun acc c => acc * 10 + (c.toNat - 48)) 0 : Nat)
    match rest with
    | [] => if ip = [] then none else some (p.1 * ipVal)
    | '.' :: frac =>
        if frac.all Char.isDigit ∧ (ip ≠ [] ∨ frac ≠ []) then
          some (p.1 * (ipVal +
            ((frac.foldl (fun acc c => acc * 10 + (c.toNat - 48)) 0 : Nat) : ℚ) /
              (10 : ℚ) ^ frac.length))
        else none
    | _ => none

/-- JavaScript `Number(v)`: `null ↦ 0`, `undefined ↦ NaN`, booleans to
`0`/`1`, numbers unchanged, strings via `jsStrToNum`; objects and
functions coerce through their `toString` — `"<fn … >"`,
a class name (an identifier), `"… instance"`, `"<native fn>"` — all
of which parse to `NaN`. -/
def jsToNumber : LoxValue → JsNum
  | .vnil => some 0
  | .vundefined => none
  | .vbool b => some (if b then 1 else 0)
  | .vnum n => n
  | .vstr s => jsStrToNum s
  | _ => none

def jsNeg : JsNum → JsNum
  | none => none
  | some q => some (-q)

def jsSub : JsNum → JsNum → JsNum
  | some a, some b => some (a - b)
  | _, _ => none

def jsAdd : JsNum → JsNum → JsNum
  | some a, some b => some (a + b)
  | _, _ => none

def jsMul : JsNum → JsNum → JsNum
  | some a, some b => some (a * b)
  | _, _ => none

/-- JavaScript `/` under the evaluator's guard that the right operand
is not `0`; `NaN` propagates. -/
def jsDiv : JsNum → JsNum → JsNum
  | some a, some b => some (a / b)
  | _, _ => none

def jsGt : JsNum → JsNum → Bool
  | some a, some b => a > b
  | _, _ => false

def jsGe : JsNum → JsNum → Bool
  | some a, some b => a ≥ b
  | _, _ => false

def jsLt : JsNum → JsNum → Bool
  | some a, some b => a < b
  | _, _ => false

def jsLe : JsNum → JsNum → Bool
  | some a, some b => a ≤ b
  | _, _ => false

/-- JavaScript number-to-string.  Integral doubles print without a
decimal point; `NaN` prints `"NaN"`.  Non-integral values are not
printed by any concrete input below, so their exact decimal form is
not modelled. -/
def jsNumToString (n : JsNum) : String :=
  match n with
  | none => "NaN"
  | some q => if q.den = 1 then toString q.num else "<non-integral double>"

/-- JavaScript `String(v)` (used by the `+` string-coercion branch):
`null ↦ "null"`, `undefined ↦ "undefined"`, `toString` for objects —
`LoxFunction`'s is `` `<fn ${name.lexeme} >` ``, `LoxClass`'s its
name, `LoxInstance`'s `` `${name} instance` ``, the clock's
`"<native fn>"`. -/
def jsToString (σ : St) : LoxValue → String
  | .vnil => "null"
  | .vundefined => "undefined"
  | .vbool b => if b then "true" else "false"
  | .vnum n => jsNumToString n
  | .vstr s => s
  | .vfun f => s!"<fn {f.declaration.name.lexeme} >"
  | .vclass c => c.name
  | .vinst i =>
      let inst := σ.insts.getD i ⟨.mk "" none [], []⟩
      s!"{inst.klass.name} instance"
  | .vclock => "<native fn>"

/-- `Interpreter.stringify`: `null ↦ "nil"`, numbers via `toString`
with the dead `".0"`-stripping branch (JavaScript never produces a
trailing `".0"`), everything else via `object.toString()` — which
throws a host `TypeError` on `undefined`. -/
def stringify (σ : St) : LoxValue → Except String String
  | .vnil => .ok "nil"
  | .vundefined => .error "TypeError: Cannot read properties of undefined"
  | .vnum n => .ok (jsNumToString n)
  | v => .ok (jsToString σ v)

/-- JavaScript strict equality `===` on Lox values.  `NaN` equals
nothing; instances compare by store reference.  Distinct
`LoxFunction` / `LoxClass` heap objects with equal fields are `===`
only if they are the same object: the embedding approximates this
structurally (no claim evaluates `==` on functions or classes). -/
def jsStrictEq : LoxValue → LoxValue → Bool
  | .vnil, .vnil => true
  | .vundefined, .vundefined => true
  | .vbool a, .vbool b => a = b
  | .vnum (some a), .vnum (some b) => a = b
  | .vstr a, .vstr b => a = b
  | .vinst i, .vinst j => i = j
  | .vclock, .vclock => true
  | _, _ => false

/-- `Interpreter.isEqual`. -/
def isEqual (a b : LoxValue) : Bool :=
  match a, b with
  | .vnil, .vnil => true
  | .vnil, _ => false
  | a, b => jsStrictEq a b

/-- `isInstanceOfLoxCallable`: `"call" in object`.  On primitives,
`null` and `undefined` the JavaScript `in` operator itself throws a
`TypeError`; on a `LoxInstance` it is `false`; on functions, classes
and the clock it is `true`. -/
def isCallableCheck : LoxValue → Except String Bool
  | .vfun _ => .ok true
  | .vclass _ => .ok true
  | .vclock => .ok true
  | .vinst _ => .ok false
  | _ => .error "TypeError: Cannot use 'in' operator"

/-- `func.arity()`: parameter count for functions; for classes the
`init` arity (via the same buggy `findMethod`) or `0`; `0` for the
clock. -/
def arity : LoxValue → Nat
  | .vfun f => f.declaration.params.length
  | .vclass c =>
      match c.findMethod "init" with
      | some initf => initf.declaration.params.length
      | none => 0
  | _ => 0

/-- `Interpreter.checkNumberOperand` — note the source's message reads
"Operator must be a number." (sic). -/
def checkNumberOperand (operator : Token) (operand : LoxValue) :
    Except Sig Unit :=
  match operand with
  | .vnum _ => .ok ()
  | _ => .error (.rte operator "Operator must be a number.")

/-- `Interpreter.checkNumberOperands` — same message. -/
def checkNumberOperands (operator : Token) (left right : LoxValue) :
    Except Sig Unit :=
  match left, right with
  | .vnum _, .vnum _ => .ok ()
  | _, _ => .error (.rte operator "Operator must be a number.")

/-- The `switch` of `Interpreter.visitBinaryExpr` applied to the two
already-evaluated operands.  Faithful points: comparisons and `*`,
`/` check both operands; `-` checks only the *right* operand; `+`
has its own overload ladder; `/` rejects a zero right operand with
"Cannot divide by 0"; an unknown operator falls through to
`return null`. -/
def binaryOp (operator : Token) (l r : LoxValue) (σ : St) :
    Except Sig LoxValue :=
  match operator.type with
  | .GREATER =>
      match checkNumberOperands operator l r with
      | .error s => .error s
      | .ok _ => .ok (.vbool (jsGt (jsToNumber l) (jsToNumber r)))
  | .GREATER_EQUAL =>
      match checkNumberOperands operator l r with
      | .error s => .error s
      | .ok _ => .ok (.vbool (jsGe (jsToNumber l) (jsToNumber r)))
  | .LESS =>
      match checkNumberOperands operator l r with
      | .error s => .error s
      | .ok _ => .ok (.vbool (jsLt (jsToNumber l) (jsToNumber r)))
  | .LESS_EQUAL =>
      match checkNumberOperands operator l r with
      | .error s => .error s
      | .ok _ => .ok (.vbool (jsLe (jsToNumber l) (jsToNumber r)))
  | .MINUS =>
      match checkNumberOperand operator r with
      | .error s => .error s
      | .ok _ => .ok (.vnum (jsSub (jsToNumber l) (jsToNumber r)))
  | .PLUS =>
      match l, r with
      | .vnum a, .vnum b => .ok (.vnum (jsAdd a b))
      | .vstr a, .vstr b => .ok (.vstr (a ++ b))
      | l, r =>
          if l matches .vstr _ then .ok (.vstr (jsToString σ l ++ jsToString σ r))
          else if r matches .vstr _ then
            .ok (.vstr (jsToString σ l ++ jsToString σ r))
          else .error (.rte operator "Operands must be two numbers or two strings.")
  | .SLASH =>
      match checkNumberOperands operator l r with
      | .error s => .error s
      | .ok _ =>
          if jsToNumber r = some 0 then
            .error (.rte operator "Cannot divide by 0")
          else .ok (.vnum (jsDiv (jsToNumber l) (jsToNumber r)))
  | .STAR =>
      match checkNumberOperands operator l r with
      | .error s => .error s
      | .ok _ => .ok (.vnum (jsMul (jsToNumber l) (jsToNumber r)))
  | .BANG_EQUAL => .ok (.vbool (isEqual l r))
  | .EQUAL_EQUAL => .ok (.vbool (isEqual l r))
  | _ => .ok .vnil

/-- The `switch` of `Interpreter.visitUnaryExpr` applied to the
evaluated operand.  Faithful point: unary `-` performs *no* operand
check; it coerces with `Number(...)` (so `-true` is `-1`, `-"x"` is
`NaN`). -/
def unaryOp (operator : Token) (r : LoxValue) : LoxValue :=
  match operator.type with
  | .BANG => .vbool (¬ isTruthy r)
  | .MINUS => .vnum (jsNeg (jsToNumber r))
  | _ => .vnil

instance : Inhabited Inst := ⟨⟨.mk "" none [], []⟩⟩

/-- `LoxFunction.bind(instance)`: a fresh frame inside the method's
closure whose sole entry is `this ↦ instance`. -/
def bindFn (σ : St) (f : LoxFunction) (i : Nat) : LoxFunction × St :=
  (⟨f.declaration, σ.envs.length, f.isInitializer⟩,
   { σ with envs := σ.envs ++ [⟨[("this", .vinst i)], some f.closure⟩] })

/-- `LoxInstance.get`: field first, then a method of the class chain
bound to the instance, else `RuntimeError` "Undefined property". -/
def instanceGet (σ : St) (i : Nat) (name : Token) :
    Except Sig (LoxValue × St) :=
  let inst := σ.insts.getD i default
  match recGet inst.fields name.lexeme with
  | some v => .ok (v, σ)
  | none =>
      match inst.klass.findMethod name.lexeme with
      | some m =>
          let p := bindFn σ m i
          .ok (.vfun p.1, p.2)
      | none => .error (.rte name s!"Undefined property '{name.lexeme}'.")

/-- `LoxInstance.set`: unconditional field write. -/
def instanceSet (σ : St) (i : Nat) (name : Token) (v : LoxValue) : St :=
  let inst := σ.insts.getD i default
  { σ with insts := σ.insts.set i { inst with fields := recSet inst.fields name.lexeme v } }

/-- `Interpreter.lookUpVariable`: a hop count in `locals` selects
`getAt` from the current frame; otherwise the globals chain `get`. -/
def lookUpVariable (fuel : Nat) (L : Locals) (σ : St) (e : Nat)
    (name : Token) (expr : Expr) : Except Fail (LoxValue × St) :=
  match L expr with
  | some d =>
      match Environment.getAt σ e d name.lexeme with
      | some v => .ok (v, σ)
      | none => .error (.sig (.host "TypeError: null environment") σ)
  | none =>
      match Environment.envGet fuel σ 0 name.lexeme with
      | some (.ok v) => .ok (v, σ)
      | some (.error msg) => .error (.sig (.rte name msg) σ)
      | none => .error .fuel

/-- Parameter binding of `LoxFunction.call`: `define(params[i].lexeme,
args[i])` for each `i < params.length`; a missing argument reads as
`undefined` (the caller checks arity, `call` itself does not). -/
def bindParams (params : List Token) (args : List LoxValue) :
    List (String × LoxValue) :=
  params.enum.foldl (fun acc p => recSet acc p.2.lexeme (args.getD p.1 .vundefined)) []

def litToValue : Literal' → LoxValue
  | .nilL => .vnil
  | .boolL b => .vbool b
  | .numL n => .vnum (some n)
  | .strL s => .vstr s

/- The evaluator of `src/lox.js` (expressions and statements) and the
callable implementations of `src/types.ts`, packaged as one
fuel-indexed tuple (`mkEval`, plain structural recursion on fuel) so
that concrete runs reduce definitionally.  Every recursive visit in
the source corresponds to a call at the predecessor fuel. -/
structure Evaluator where
  evalExprF : Locals → St → Nat → Expr → Except Fail (LoxValue × St)
  evalArgsF : Locals → St → Nat → List Expr → Except Fail (List LoxValue × St)
  execStmtF : Locals → St → Nat → Stmt → Except Fail (Unit × St)
  execStmtsF : Locals → St → Nat → List Stmt → Except Fail (Unit × St)
  execWhileF : Locals → St → Nat → Expr → Stmt → Except Fail (Unit × St)
  execClassF : Locals → St → Nat → Token → Option Expr → List FunctionStmt →
    Except Fail (Unit × St)
  loxCallF : Locals → St → LoxValue → List LoxValue →
    Except Fail (LoxValue × St)
  functionCallF : Locals → St → LoxFunction → List LoxValue →
    Except Fail (LoxValue × St)
  classCallF : Locals → St → LoxClass → List LoxValue →
    Except Fail (LoxValue × St)

def evalZero : Evaluator :=
  ⟨fun _ _ _ _ => .error .fuel, fun _ _ _ _ => .error .fuel,
   fun _ _ _ _ => .error .fuel, fun _ _ _ _ => .error .fuel,
   fun _ _ _ _ _ => .error .fuel, fun _ _ _ _ _ _ => .error .fuel,
   fun _ _ _ _ => .error .fuel, fun _ _ _ _ => .error .fuel,
   fun _ _ _ _ => .error .fuel⟩

def mkEval : Nat → Evaluator
  | 0 => evalZero
  | fuel + 1 =>
      let F := mkEval fuel
      { -- The expression evaluator (`Interpreter.visit*Expr`),
        -- dispatching on the node as the visitor does.
        evalExprF := fun L σ e expr =>
          match expr with
          | .literal v => .ok (litToValue v, σ)
          | .grouping inner => F.evalExprF L σ e inner
          | .unary op right => do
              let (r, σ) ← F.evalExprF L σ e right
              .ok (unaryOp op r, σ)
          | .binary left op right => do
              let (l, σ) ← F.evalExprF L σ e left
              let (r, σ) ← F.evalExprF L σ e right
              match binaryOp op l r σ with
              | .ok v => .ok (v, σ)
              | .error s => .error (.sig s σ)
          | .ternary c t el => do
              -- visitTernaryExpr: the condition AND BOTH ARMS are
              -- always evaluated; selection uses JavaScript Boolean
              -- coercion.
              let (cv, σ) ← F.evalExprF L σ e c
              let (tv, σ) ← F.evalExprF L σ e t
              let (ev, σ) ← F.evalExprF L σ e el
              .ok (if jsBooleanCoerce cv then tv else ev, σ)
          | .variableE name => lookUpVariable fuel L σ e name (.variableE name)
          | .assign name value => do
              let (v, σ) ← F.evalExprF L σ e value
              match L (.assign name value) with
              | some d =>
                  match Environment.assignAt σ e d name.lexeme v with
                  | some σ' => .ok (v, σ')
                  | none => .error (.sig (.host "TypeError: null environment") σ)
              | none =>
                  match Environment.envAssign fuel σ 0 name.lexeme v with
                  | some (.ok σ') => .ok (v, σ')
                  | some (.error msg) => .error (.sig (.rte name msg) σ)
                  | none => .error .fuel
          | .logical left op right => do
              let (l, σ) ← F.evalExprF L σ e left
              if op.type = .OR then
                if isTruthy l then .ok (l, σ) else F.evalExprF L σ e right
              else
                if ¬ isTruthy l then .ok (l, σ) else F.evalExprF L σ e right
          | .call callee paren args => do
              let (cv, σ) ← F.evalExprF L σ e callee
              let (avs, σ) ← F.evalArgsF L σ e args
              match isCallableCheck cv with
              | .error m => .error (.sig (.host m) σ)
              | .ok false =>
                  .error (.sig (.rte paren
                    "Can only call functions and classes") σ)
              | .ok true =>
                  if avs.length ≠ arity cv then
                    .error (.sig (.rte paren
                      s!"Expected {arity cv} arguments, but got {avs.length}.") σ)
                  else F.loxCallF L σ cv avs
          | .get obj name => do
              let (ov, σ) ← F.evalExprF L σ e obj
              match ov with
              | .vinst i =>
                  match instanceGet σ i name with
                  | .ok p => .ok p
                  | .error s => .error (.sig s σ)
              | _ => .error (.sig (.rte name "Only instances have properties.") σ)
          | .set obj name value => do
              let (ov, σ) ← F.evalExprF L σ e obj
              match ov with
              | .vinst i => do
                  let (v, σ) ← F.evalExprF L σ e value
                  .ok (v, instanceSet σ i name v)
              | _ => .error (.sig (.rte name "Only instances have fields.") σ)
          | .thisE keyword => lookUpVariable fuel L σ e keyword (.thisE keyword)
          | .superE keyword method =>
              -- visitSuperExpr: `if (!distance) throw ...` — both an
              -- absent entry AND a zero entry trip the guard; there is
              -- no globals fall-through for `super`.
              match L (.superE keyword method) with
              | none =>
                  .error (.sig (.rte keyword "Super expression not found") σ)
              | some 0 =>
                  .error (.sig (.rte keyword "Super expression not found") σ)
              | some d =>
                  match Environment.getAt σ e d "super" with
                  | none => .error (.sig (.host "TypeError: null environment") σ)
                  | some sv =>
                      match sv with
                      | .vclass c =>
                          match Environment.getAt σ e (d - 1) "this" with
                          | none =>
                              .error (.sig (.host "TypeError: null environment") σ)
                          | some ov =>
                              match ov with
                              | .vinst i =>
                                  match c.findMethod method.lexeme with
                                  | none => .error (.sig (.rte method
                                      s!"Undefined property '{method.lexeme}'") σ)
                                  | some m =>
                                      let p := bindFn σ m i
                                      .ok (.vfun p.1, p.2)
                              | _ => .error
                                  (.sig (.rte keyword "Invalid super usage") σ)
                      | _ => .error (.sig (.rte keyword "Invalid super usage") σ)
        -- Left-to-right argument evaluation (`expr.args.map(evaluate)`).
        evalArgsF := fun L σ e args =>
          match args with
          | [] => .ok ([], σ)
          | a :: rest => do
              let (v, σ) ← F.evalExprF L σ e a
              let (vs, σ) ← F.evalArgsF L σ e rest
              .ok (v :: vs, σ)
        -- The statement executor (`Interpreter.visit*Stmt`).
        execStmtF := fun L σ e stmt =>
          match stmt with
          | .expression ex => do
              let (_, σ) ← F.evalExprF L σ e ex
              .ok ((), σ)
          | .print ex => do
              let (v, σ) ← F.evalExprF L σ e ex
              match stringify σ v with
              | .ok s => .ok ((), { σ with output := σ.output ++ [s] })
              | .error m => .error (.sig (.host m) σ)
          | .varDecl name initializer => do
              let (v, σ) ← (match initializer with
                | some ex => F.evalExprF L σ e ex
                | none => .ok (.vnil, σ))
              .ok ((), Environment.define σ e name.lexeme v)
          | .block stmts =>
              -- visitBlockStmt: a fresh child frame; `executeBlock`'s
              -- `finally` restoration is the caller keeping its own `e`.
              let newE := σ.envs.length
              let σ' := { σ with envs := σ.envs ++ [⟨[], some e⟩] }
              F.execStmtsF L σ' newE stmts
          | .ifS c t el => do
              let (cv, σ) ← F.evalExprF L σ e c
              if isTruthy cv then F.execStmtF L σ e t
              else
                match el with
                | some s => F.execStmtF L σ e s
                | none => .ok ((), σ)
          | .whileS c body => F.execWhileF L σ e c body
          | .funDecl f =>
              .ok ((), Environment.define σ e f.name.lexeme (.vfun ⟨f, e, false⟩))
          | .ret _ value => do
              let (v, σ) ← (match value with
                | some ex => F.evalExprF L σ e ex
                | none => .ok (.vnil, σ))
              .error (.sig (.retSig v) σ)
          | .classDecl name sce methods => F.execClassF L σ e name sce methods
        execStmtsF := fun L σ e stmts =>
          match stmts with
          | [] => .ok ((), σ)
          | s :: rest => do
              let (_, σ) ← F.execStmtF L σ e s
              F.execStmtsF L σ e rest
        -- visitWhileStmt: a thin wrapper around the host `while`.
        execWhileF := fun L σ e c body => do
          let (cv, σ) ← F.evalExprF L σ e c
          if isTruthy cv then do
            let (_, σ) ← F.execStmtF L σ e body
            F.execWhileF L σ e c body
          else .ok ((), σ)
        -- visitClassStmt: evaluate and check the superclass, define the
        -- name as nil, push a `super` frame when a superclass clause
        -- exists, build the method map (closures capture the
        -- post-`super` frame, isInitializer iff the name is "init"),
        -- then assign the class value back to its name.
        execClassF := fun L σ e name sce methods => do
          let (superclassV, σ) ← (match sce with
            | some scExpr => do
                let (sv, σ) ← F.evalExprF L σ e scExpr
                match sv with
                | .vclass c =>
                    (.ok (some c, σ) : Except Fail (Option LoxClass × St))
                | _ =>
                    -- `new RuntimeError(stmt.superclass.name, ...)`; the
                    -- superclass expression is a `VariableExpr` whenever
                    -- one exists at all.
                    let tok := match scExpr with
                      | .variableE t => t
                      | _ => ⟨.EOF, "", none, 0⟩
                    .error (.sig (.rte tok "Superclass must be a class.") σ)
            | none => .ok (none, σ))
          let σ := Environment.define σ e name.lexeme .vnil
          let (envC, σ) :=
            match sce, superclassV with
            | some _, some c =>
                (σ.envs.length,
                 { σ with envs := σ.envs ++ [⟨[("super", .vclass c)], some e⟩] })
            | _, _ => (e, σ)
          let mMap := methods.foldl
            (fun (acc : List (String × LoxFunction)) (m : FunctionStmt) =>
              recSet acc m.name.lexeme
                (LoxFunction.mk m envC (m.name.lexeme == "init"))) []
          let klass := LoxClass.mk name.lexeme superclassV mMap
          -- `if (superclass) environment = environment.enclosing!`
          -- brings the frame back to `e`;
          -- `environment.assign(stmt.name, klass)`.
          match Environment.envAssign fuel σ e name.lexeme (.vclass klass) with
          | some (.ok σ') => .ok ((), σ')
          | some (.error msg) => .error (.sig (.rte name msg) σ)
          | none => .error .fuel
        -- Dispatch of `func.call(this, args)` on the three callable
        -- kinds.  The clock returns the host wall-clock time, modelled
        -- as a fixed number; no claim observes it.
        loxCallF := fun L σ callee args =>
          match callee with
          | .vclock => .ok (.vnum (some 0), σ)
          | .vfun f => F.functionCallF L σ f args
          | .vclass c => F.classCallF L σ c args
          | _ => .error (.sig (.host "TypeError: not callable") σ)
        -- `LoxFunction.call` (`src/types.ts`):
        --   try {
        --     interpreter.executeBlock(this.declaration.body, environment);
        --   } catch (error) {
        --     const returnValue = error as LoxFunctionReturn;
        --     if (this.isInitializer) return this.closure.getAt(0, "this");
        --     return returnValue.value;
        --   }
        --   if (this.isInitializer) return this.closure.getAt(0, "this");
        --   return null;
        -- The catch intercepts EVERY thrown exception — the return
        -- signal, but also any RuntimeError or host error raised in the
        -- body; for those, `returnValue.value` reads the absent `value`
        -- property, i.e. `undefined`.  Only fuel exhaustion
        -- (non-termination, invisible to a JavaScript catch) passes
        -- through.
        functionCallF := fun L σ f args =>
          let newE := σ.envs.length
          let σ1 := { σ with envs :=
            σ.envs ++ [⟨bindParams f.declaration.params args, some f.closure⟩] }
          match F.execStmtsF L σ1 newE f.declaration.body with
          | .ok (_, σ2) =>
              if f.isInitializer then
                .ok ((Environment.getAt σ2 f.closure 0 "this").getD .vundefined, σ2)
              else .ok (.vnil, σ2)
          | .error (.sig s σ2) =>
              if f.isInitializer then
                .ok ((Environment.getAt σ2 f.closure 0 "this").getD .vundefined, σ2)
              else
                match s with
                | .retSig v => .ok (v, σ2)
                | _ => .ok (.vundefined, σ2)
          | .error .fuel => .error .fuel
        -- `LoxClass.call`: allocate the instance, then bind and invoke
        -- `init` when `findMethod` finds one.
        classCallF := fun L σ c args =>
          let i := σ.insts.length
          let σ1 := { σ with insts := σ.insts ++ [⟨c, []⟩] }
          match c.findMethod "init" with
          | some initf => do
              let p := bindFn σ1 initf i
              let (_, σ2) ← F.functionCallF L p.2 p.1 args
              .ok (.vinst i, σ2)
          | none => .ok (.vinst i, σ1) }

/-- The expression evaluator (`Interpreter.visit*Expr`). -/
def evalExpr (fuel : Nat) : Locals → St → Nat → Expr →
    Except Fail (LoxValue × St) :=
  (mkEval fuel).evalExprF

/-- Left-to-right argument evaluation. -/
def evalArgs (fuel : Nat) : Locals → St → Nat → List Expr →
    Except Fail (List LoxValue × St) :=
  (mkEval fuel).evalArgsF

/-- The statement executor (`Interpreter.visit*Stmt`). -/
def execStmt (fuel : Nat) : Locals → St → Nat → Stmt →
    Except Fail (Unit × St) :=
  (mkEval fuel).execStmtF

def execStmts (fuel : Nat) : Locals → St → Nat → List Stmt →
    Except Fail (Unit × St) :=
  (mkEval fuel).execStmtsF

/-- `LoxFunction.call`. -/
def functionCall (fuel : Nat) : Locals → St → LoxFunction → List LoxValue →
    Except Fail (LoxValue × St) :=
  (mkEval fuel).functionCallF

/-- `LoxClass.call`. -/
def classCall (fuel : Nat) : Locals → St → LoxClass → List LoxValue →
    Except Fail (LoxValue × St) :=
  (mkEval fuel).classCallF

/-- `Interpreter.interpret` (`src/lox.js`): execute the statements in
order inside one `try`; any thrown exception stops the run and is
handed to `runtimeError` (so the outcome records it).  A `null`
statement from panic recovery crashes on `null.accept`. -/
def interpret : Nat → Locals → St → List (Option Stmt) →
    Option (St × Option Sig)
  | 0, _, _, _ => none
  | _ + 1, _, σ, [] => some (σ, none)
  | _ + 1, _, σ, none :: _ =>
      some (σ, some (.host "TypeError: Cannot read properties of null"))
  | fuel + 1, L, σ, some s :: rest =>
      match execStmt fuel L σ 0 s with
      | .ok (_, σ') => interpret fuel L σ' rest
      | .error (.sig sg σ') => some (σ', some sg)
      | .error .fuel => none

/-- The interpreter's initial heap: the globals frame with the native
`clock`, no instances, empty output. -/
def initSt : St := ⟨[⟨[("clock", .vclock)], none⟩], [], []⟩

/-- Run a program (a parsed statement list) from a fresh interpreter
with the given resolver output. -/
def runProgram (fuel : Nat) (L : Locals) (stmts : List Stmt) :
    Option (St × Option Sig) :=
  interpret fuel L initSt (stmts.map some)

end Interp

/-! ## Shared infrastructure for the claim theorems -/

/-- Decidable chain predicate: `ids` lists frames such that the first
entry starts the chain and each frame's `enclosing` link is the next
entry. -/
def isChainB (σ : St) : List Nat → Bool
  | [] => true
  | [_] => true
  | a :: b :: rest => ((σ.frame a).enclosing == some b) && isChainB σ (b :: rest)

/-- Projection of a run outcome to its printed output and whether a
signal (runtime error, return, or host error) escaped to the top. -/
def outputOf (r : Option (St × Option Interp.Sig)) :
    Option (List String × Bool) :=
  r.map fun p => (p.1.output, p.2.isSome)

/-- Projection of a run outcome to a global binding. -/
def globalOf (r : Option (St × Option Interp.Sig)) (name : String) :
    Option (Option LoxValue) :=
  r.map fun p => recGet (p.1.frame 0).values name

/-- The all-global resolver map (no hop-count entries). -/
def noLocals : Interp.Locals := fun _ => none

/-- Concrete store for witnesses: a globals frame holding `g`, a middle
frame holding `mid`, and a top frame holding `x`, chained `2 → 1 → 0`. -/
def σW : St :=
  ⟨[⟨[("g", .vstr "G")], none⟩,
    ⟨[("mid", .vnum (some 3))], some 0⟩,
    ⟨[("x", .vstr "local")], some 1⟩], [], []⟩

/-- Shorthand for a literal-free token on line 1. -/
def tk (ty : TokenType) (lex : String) : Token := ⟨ty, lex, none, 1⟩

/-! Concrete inputs for the claims.  `progC1` is the AST of the spec's
inheritance scenario
`class A { greet() { print "hi"; } }
class B < A { greet() { super.greet(); print "there"; } }
B().greet();`
(hand-assembled, since the snapshot's parser has no superclass
clause, no `super` and no `this`), with `LC1` the hop counts the
resolver assigns (`super` sits two frames above a method body). -/

def greetA : FunctionStmt :=
  .mk (tk .IDENTIFIER "greet") [] [.print (.literal (.strL "hi"))]

def greetB : FunctionStmt :=
  .mk (tk .IDENTIFIER "greet") []
    [.expression (.call (.superE (tk .SUPER "super") (tk .IDENTIFIER "greet"))
        (tk .RIGHT_PAREN ")") []),
     .print (.literal (.strL "there"))]

def progC1 : List Stmt :=
  [.classDecl (tk .IDENTIFIER "A") none [greetA],
   .classDecl (tk .IDENTIFIER "B") (some (.variableE (tk .IDENTIFIER "A")))
     [greetB],
   .expression (.call
     (.get (.call (.variableE (tk .IDENTIFIER "B")) (tk .RIGHT_PAREN ")") [])
       (tk .IDENTIFIER "greet"))
     (tk .RIGHT_PAREN ")") [])]

def LC1 : Interp.Locals := fun ex =>
  match ex with
  | .superE _ _ => some 2
  | _ => none

/-- Runtime class values as `visitClassStmt` would build them for
`class A { greet() {...} }` and `class B < A { greet() {...} }`:
`B`'s own method map *does* contain its `greet` override. -/
def fA : LoxFunction := ⟨greetA, 0, false⟩

def fB : LoxFunction := ⟨greetB, 1, false⟩

def clsA : LoxClass := .mk "A" none [("greet", fA)]

def clsB : LoxClass := .mk "B" (some clsA) [("greet", fB)]

/-- The AST of `fun f() { 1/0; } var a = f(); print 1;` — a function
whose body raises the division-by-zero runtime error, then a call
whose result is stored and a print that bears witness that execution
continued. -/
def fDiv : FunctionStmt :=
  .mk (tk .IDENTIFIER "f") []
    [.expression (.binary (.literal (.numL 1)) (tk .SLASH "/")
      (.literal (.numL 0)))]

def progC2 : List Stmt :=
  [.funDecl fDiv,
   .varDecl (tk .IDENTIFIER "a")
     (some (.call (.variableE (tk .IDENTIFIER "f")) (tk .RIGHT_PAREN ")") [])),
   .print (.literal (.numL 1))]

/-- The store at the moment the division-by-zero error is thrown inside
`f`'s body: the globals frame plus `f`'s (empty) call frame. -/
def σC2 : St := ⟨[⟨[("clock", .vclock)], none⟩, ⟨[], some 0⟩], [], []⟩

/-- Token list of `1 - 2 - 3;`. -/
def toksC3 : List Token :=
  [⟨.NUMBER, "1", some (.num 1), 1⟩, tk .MINUS "-",
   ⟨.NUMBER, "2", some (.num 2), 1⟩, tk .MINUS "-",
   ⟨.NUMBER, "3", some (.num 3), 1⟩, tk .SEMICOLON ";", tk .EOF ""]

/-- Token list of `1 * 2 + 3;`. -/
def toksC3b : List Token :=
  [⟨.NUMBER, "1", some (.num 1), 1⟩, tk .STAR "*",
   ⟨.NUMBER, "2", some (.num 2), 1⟩, tk .PLUS "+",
   ⟨.NUMBER, "3", some (.num 3), 1⟩, tk .SEMICOLON ";", tk .EOF ""]

/-- Token list of `p.x = 1;`. -/
def toksC7 : List Token :=
  [tk .IDENTIFIER "p", tk .DOT ".", tk .IDENTIFIER "x", tk .EQUAL "=",
   ⟨.NUMBER, "1", some (.num 1), 1⟩, tk .SEMICOLON ";", tk .EOF ""]

/-- Token list of `class B < A { }`. -/
def toksC8 : List Token :=
  [tk .CLASS "class", tk .IDENTIFIER "B", tk .LESS "<", tk .IDENTIFIER "A",
   tk .LEFT_BRACE "\x7b", tk .RIGHT_BRACE "\x7d", tk .EOF ""]

/-- Token list of `class C { }` (no superclass clause). -/
def toksC8ok : List Token :=
  [tk .CLASS "class", tk .IDENTIFIER "C",
   tk .LEFT_BRACE "\x7b", tk .RIGHT_BRACE "\x7d", tk .EOF ""]

/-- Resolver map for the C4 witnesses: `mid` one hop up, assignments to
`x` in the current frame, `super` one hop up; everything else
global. -/
def LW : Interp.Locals := fun ex =>
  match ex with
  | .variableE t => if t.lexeme == "mid" then some 1 else none
  | .assign t _ => if t.lexeme == "x" then some 0 else none
  | .superE _ _ => some 1
  | _ => none

/-- Store for the C4 `super` witness: a method-call shape — frame 2 is
the method body (holding `this`), frame 1 the class frame (holding
`super` ↦ `A`), frame 0 the globals; one `A` instance. -/
def σS : St :=
  ⟨[⟨[], none⟩,
    ⟨[("super", .vclass clsA)], some 0⟩,
    ⟨[("this", .vinst 0)], some 1⟩], [⟨clsA, []⟩], []⟩

/-- `typeof v === "number"` as the operand checks test it. -/
def isNumV : LoxValue → Bool
  | .vnum _ => true
  | _ => false

/-! ## Supporting lemmas -/

theorem list_getD_set_self {α : Type} (l : List α) (i : Nat) (x d : α)
    (h : i < l.length) : (l.set i x).getD i d = x := by
  induction l generalizing i with
  | nil => simp at h
  | cons hd tl ih =>
      cases i with
      | zero => rfl
      | succ i => exact ih i (by simpa using h)

/-- One-step unfolding of the evaluator on a literal. -/
theorem evalExpr_literal (fuel : Nat) (L : Interp.Locals) (σ : St) (e : Nat)
    (v : Literal') :
    Interp.evalExpr (fuel + 1) L σ e (.literal v) =
      .ok (Interp.litToValue v, σ) := rfl

/-- One-step unfolding of the evaluator on a ternary. -/
theorem evalExpr_ternary_step (fuel : Nat) (L : Interp.Locals) (σ : St)
    (e : Nat) (c t el : Expr) :
    Interp.evalExpr (fuel + 1) L σ e (.ternary c t el) = (do
      let p1 ← Interp.evalExpr fuel L σ e c
      let p2 ← Interp.evalExpr fuel L p1.2 e t
      let p3 ← Interp.evalExpr fuel L p2.2 e el
      .ok (if Interp.jsBooleanCoerce p1.1 then p2.1 else p3.1, p3.2)) := rfl

/-- One-step unfolding of the evaluator on a binary node. -/
theorem evalExpr_binary_step (fuel : Nat) (L : Interp.Locals) (σ : St)
    (e : Nat) (l : Expr) (op : Token) (r : Expr) :
    Interp.evalExpr (fuel + 1) L σ e (.binary l op r) = (do
      let p1 ← Interp.evalExpr fuel L σ e l
      let p2 ← Interp.evalExpr fuel L p1.2 e r
      match Interp.binaryOp op p1.1 p2.1 p2.2 with
      | .ok v => .ok (v, p2.2)
      | .error s => .error (.sig s p2.2)) := rfl

/-- `bind` on a successful `Except` computation. -/
theorem exceptBind_ok {ε α β : Type} (a : α) (f : α → Except ε β) :
    ((Except.ok a : Except ε α) >>= f) = f a := rfl

/-- `bind` on a failed `Except` computation. -/
theorem exceptBind_err {ε α β : Type} (e : ε) (f : α → Except ε β) :
    ((Except.error e : Except ε α) >>= f) = .error e := rfl

/-- `Parser.consume` on a non-matching token: report and throw. -/
theorem consume_fail (ty : TokenType) (msg : String) (st : Parser.PSt)
    (h : Parser.checkT ty st = false) :
    Parser.consume ty msg st =
      .error (.thrown (Parser.mkError st (Parser.peek st) msg).2
        (Parser.mkError st (Parser.peek st) msg).1) := by
  simp [Parser.consume, h]

/-- `ancestor` walks exactly along a chain: starting at the head of a
chain, `d` steps land on its `d`-th entry. -/
theorem ancestor_chain (σ : St) :
    ∀ (d : Nat) (ids : List Nat), isChainB σ ids = true → d < ids.length →
      Environment.ancestor σ (ids.getD 0 0) d = some (ids.getD d 0) := by
  intro d
  induction d with
  | zero => intro ids _ _; rfl
  | succ d ih =>
      intro ids hchain hlen
      rcases ids with _ | ⟨a, _ | ⟨b, rest⟩⟩
      · simp at hlen
      · simp at hlen
      · simp only [isChainB, Bool.and_eq_true, beq_iff_eq] at hchain
        show Environment.ancestor σ a (d + 1) = some ((b :: rest).getD d 0)
        unfold Environment.ancestor
        rw [hchain.1]
        have := ih (b :: rest) hchain.2
          (by simp only [List.length_cons] at hlen ⊢; omega)
        simpa using this

/-- `getAt` on a sufficiently long chain reads the `d`-th frame's
binding, and an absent name reads as `undefined` — never an error. -/
theorem getAt_chain (σ : St) (d : Nat) (ids : List Nat) (name : String)
    (hchain : isChainB σ ids = true) (hlen : d < ids.length) :
    Environment.getAt σ (ids.getD 0 0) d name =
      some ((recGet (σ.frame (ids.getD d 0)).values name).getD .vundefined) := by
  unfold Environment.getAt
  rw [ancestor_chain σ d ids hchain hlen]
  rfl

/-- `assignAt` on a sufficiently long chain writes the `d`-th frame
unconditionally. -/
theorem assignAt_chain (σ : St) (d : Nat) (ids : List Nat) (name : String)
    (v : LoxValue) (hchain : isChainB σ ids = true) (hlen : d < ids.length) :
    Environment.assignAt σ (ids.getD 0 0) d name v =
      some (σ.setFrame (ids.getD d 0)
        { σ.frame (ids.getD d 0) with
            values := recSet (σ.frame (ids.getD d 0)).values name v }) := by
  unfold Environment.assignAt
  rw [ancestor_chain σ d ids hchain hlen]
  rfl

/-- Reading back a `recSet` write. -/
theorem recGet_recSet {α : Type} (m : List (String × α)) (k : String) (v : α) :
    recGet (recSet m k v) k = some v := by
  induction m with
  | nil => simp [recSet, recGet]
  | cons hd tl ih =>
      obtain ⟨k', v'⟩ := hd
      by_cases h : k' = k
      · simp [recSet, recGet, h]
      · simp [recSet, recGet, h, ih]

theorem envGet_error_msg (name : String) :
    ∀ (fuel : Nat) (σ : St) (e : Nat) (m : String),
      Environment.envGet fuel σ e name = some (.error m) →
      m = s!"Undefined variable '{name}'" := by
  intro fuel
  induction fuel with
  | zero => intro σ e m h; simp [Environment.envGet] at h
  | succ fuel ih =>
      intro σ e m h
      unfold Environment.envGet at h
      by_cases hp : (recGet (σ.frame e).values name).isSome
      · simp [hp] at h
      · simp [hp] at h
        match henc : (σ.frame e).enclosing with
        | some e' => rw [henc] at h; exact ih σ e' m h
        | none => rw [henc] at h; simp at h; exact h.symm

theorem envAssign_error_msg (name : String) (v : LoxValue) :
    ∀ (fuel : Nat) (σ : St) (e : Nat) (m : String),
      Environment.envAssign fuel σ e name v = some (.error m) →
      m = s!"Undefined variable '{name}'." := by
  intro fuel
  induction fuel with
  | zero => intro σ e m h; simp [Environment.envAssign] at h
  | succ fuel ih =>
      intro σ e m h
      unfold Environment.envAssign at h
      by_cases hp : (recGet (σ.frame e).values name).isSome
      · simp [hp] at h
      · simp [hp] at h
        match henc : (σ.frame e).enclosing with
        | some e' => rw [henc] at h; exact ih σ e' m h
        | none => rw [henc] at h; simp at h; exact h.symm

/-- C10. Hop-indexed environment access never reports an undefined
variable: on a chain of at least `d + 1` frames, `getAt` walks exactly
`d` enclosing links and returns the binding stored there — `undefined`
when the name is absent, never an error; `assignAt` writes the binding
unconditionally, creating it if absent; and the only "Undefined
variable" errors of the environment module come from the
chain-walking `get` / `assign` used on the globals path (with their
respective messages). -/
theorem c10_env_hop_access :
    (∀ (σ : St) (d : Nat) (ids : List Nat) (name : String),
      isChainB σ ids = true → d < ids.length →
      Environment.getAt σ (ids.getD 0 0) d name =
        some ((recGet (σ.frame (ids.getD d 0)).values name).getD .vundefined)) ∧
    (∀ (σ : St) (d : Nat) (ids : List Nat) (name : String),
      isChainB σ ids = true → d < ids.length →
      recGet (σ.frame (ids.getD d 0)).values name = none →
      Environment.getAt σ (ids.getD 0 0) d name = some .vundefined) ∧
    (∀ (σ : St) (d : Nat) (ids : List Nat) (name : String) (v : LoxValue),
      isChainB σ ids = true → d < ids.length →
      ids.getD d 0 < σ.envs.length →
      ∃ σ', Environment.assignAt σ (ids.getD 0 0) d name v = some σ' ∧
        recGet (σ'.frame (ids.getD d 0)).values name = some v) ∧
    (∀ (fuel : Nat) (σ : St) (e : Nat) (name m : String),
      Environment.envGet fuel σ e name = some (.error m) →
      m = s!"Undefined variable '{name}'") ∧
    (∀ (fuel : Nat) (σ : St) (e : Nat) (name : String) (v : LoxValue)
      (m : String),
      Environment.envAssign fuel σ e name v = some (.error m) →
      m = s!"Undefined variable '{name}'.") := by
  refine ⟨?_, ?_, ?_, ?_, ?_⟩
  · intro σ d ids name hc hl
    exact getAt_chain σ d ids name hc hl
  · intro σ d ids name hc hl habs
    rw [getAt_chain σ d ids name hc hl, habs]
    rfl
  · intro σ d ids name v hc hl hidx
    refine ⟨_, assignAt_chain σ d ids name v hc hl, ?_⟩
    show recGet ((St.setFrame σ _ _).frame (ids.getD d 0)).values name = some v
    unfold St.setFrame St.frame
    rw [list_getD_set_self _ _ _ _ hidx]
    exact recGet_recSet _ name v
  · intro fuel σ e name m h
    exact envGet_error_msg name fuel σ e m h
  · intro fuel σ e name v m h
    exact envAssign_error_msg name v fuel σ e m h

theorem c10_witness :
    isChainB σW [2, 1, 0] = true ∧ (1 : Nat) < ([2, 1, 0] : List Nat).length ∧
    Environment.getAt σW 2 1 "zz" = some .vundefined ∧
    (∃ σ', Environment.assignAt σW 2 1 "zz" (.vbool true) = some σ' ∧
      recGet (σ'.frame 1).values "zz" = some (.vbool true)) := by
  refine ⟨by decide, by decide, ?_, ?_⟩
  · exact c10_env_hop_access.2.1 σW 1 [2, 1, 0] "zz" (by decide) (by decide)
      rfl
  · exact c10_env_hop_access.2.2.1 σW 1 [2, 1, 0] "zz" (.vbool true)
      (by decide) (by decide) (by decide)

/-! ## C1 — method lookup and subclass overrides -/

/-- C1.  The claim says property reads find methods by walking the
instance's own class first, so a subclass override wins and the
inheritance scenario prints `hi` then `there`.  The code's
`findMethod` tests `name in this.methods` on a `Map` object, which
never sees the entries: whenever a superclass exists, the class's own
method map is skipped entirely, so `B`'s override is bypassed
(`findMethod` returns `A`'s `greet` even though `B`'s map holds one)
and the scenario prints only `hi`. -/
theorem c1_findMethod_skips_subclass_methods :
    (∀ (nm n : String) (sup : LoxClass) (ms : List (String × LoxFunction)),
      jsInMapObject nm = false →
      LoxClass.findMethod (.mk n (some sup) ms) nm = sup.findMethod nm) ∧
    recGet clsB.methods "greet" = some fB ∧
    clsB.findMethod "greet" = some fA ∧
    outputOf (Interp.runProgram 100 LC1 progC1) = some (["hi"], false) := by
  refine ⟨?_, rfl, rfl, rfl⟩
  intro nm n sup ms h
  simp [LoxClass.findMethod, h]

/-- Witness for C1's quantified part at the scenario's classes. -/
theorem c1_witness :
    jsInMapObject "greet" = false ∧
    LoxClass.findMethod (.mk "B" (some clsA) [("greet", fB)]) "greet" =
      clsA.findMethod "greet" :=
  ⟨by decide,
   c1_findMethod_skips_subclass_methods.1 "greet" "B" clsA [("greet", fB)]
     (by decide)⟩

/-! ## C2 — the function-call boundary and runtime errors -/

/-- C2.  The claim says a runtime error raised in a function body
unwinds through the call boundary and only the return signal is
caught there.  In the code, `LoxFunction.call`'s `catch` intercepts
*every* exception: a call can never surface a thrown error (first
conjunct — only fuel exhaustion or a normal value), a runtime error
in the body becomes the call's return value `undefined` (second
conjunct), and the concrete program
`fun f() { 1/0; } var a = f(); print 1;` runs to completion, printing
`1` and leaving `a = undefined` (third and fourth conjuncts). -/
theorem c2_call_swallows_runtime_errors :
    (∀ (fuel : Nat) (L : Interp.Locals) (σ : St) (f : LoxFunction)
      (args : List LoxValue),
      Interp.functionCall fuel L σ f args = .error .fuel ∨
      ∃ v σ', Interp.functionCall fuel L σ f args = .ok (v, σ')) ∧
    (∀ (fuel : Nat) (L : Interp.Locals) (σ σ2 : St) (f : LoxFunction)
      (args : List LoxValue) (t : Token) (m : String),
      f.isInitializer = false →
      Interp.execStmts fuel L
          { σ with envs := σ.envs ++
              [⟨Interp.bindParams f.declaration.params args, some f.closure⟩] }
          σ.envs.length f.declaration.body
        = .error (.sig (.rte t m) σ2) →
      Interp.functionCall (fuel + 1) L σ f args = .ok (.vundefined, σ2)) ∧
    outputOf (Interp.runProgram 100 noLocals progC2) = some (["1"], false) ∧
    globalOf (Interp.runProgram 100 noLocals progC2) "a" =
      some (some .vundefined) := by
  refine ⟨?_, ?_, rfl, rfl⟩
  · intro fuel L σ f args
    cases fuel with
    | zero => left; rfl
    | succ n =>
        simp only [Interp.functionCall, Interp.mkEval]
        cases hres : (Interp.mkEval n).execStmtsF L
            { σ with envs := σ.envs ++
                [⟨Interp.bindParams f.declaration.params args, some f.closure⟩] }
            σ.envs.length f.declaration.body with
        | ok p =>
            right
            cases hini : f.isInitializer <;> simp [hres, hini]
        | error fl =>
            cases fl with
            | fuel => left; simp [hres]
            | sig s σ2 =>
                right
                cases hini : f.isInitializer with
                | true => simp [hres, hini]
                | false =>
                    cases s <;> simp [hres, hini]
  · intro fuel L σ σ2 f args t m hini hbody
    simp only [Interp.execStmts] at hbody
    simp only [Interp.functionCall, Interp.mkEval]
    simp [hbody, hini]

/-- Witness for C2's quantified parts: `f` is `fun f() { 1/0; }`, whose
body throws the division-by-zero `RuntimeError`; the call returns
`undefined` instead of propagating it. -/
theorem c2_witness :
    (⟨fDiv, 0, false⟩ : LoxFunction).isInitializer = false ∧
    Interp.functionCall 51 noLocals Interp.initSt ⟨fDiv, 0, false⟩ [] =
      .ok (.vundefined, σC2) :=
  ⟨rfl,
   c2_call_swallows_runtime_errors.2.1 50 noLocals Interp.initSt σC2
     ⟨fDiv, 0, false⟩ [] (tk .SLASH "/") "Cannot divide by 0" rfl rfl⟩

/-! ## C3 — binary-operator associativity and precedence -/

/-- C3.  The claim says binary operators parse left-associatively into
left-deep trees with `*`/`/` binding tighter than `+`/`-`.  The
code's `term` and `factor` loops both parse their right operand with
`this.term()` (contradicting the grammar comments directly above
them), so `1 - 2 - 3;` parses right-deep as `1 - (2 - 3)` and
`1 * 2 + 3;` parses as `1 * (2 + 3)`. -/
theorem c3_term_parses_right_associated :
    (Parser.parse toksC3).map (fun p => p.1) =
      .ok [some (.expression (.binary (.literal (.numL 1)) (tk .MINUS "-")
        (.binary (.literal (.numL 2)) (tk .MINUS "-") (.literal (.numL 3)))))] ∧
    (Parser.parse toksC3b).map (fun p => p.1) =
      .ok [some (.expression (.binary (.literal (.numL 1)) (tk .STAR "*")
        (.binary (.literal (.numL 2)) (tk .PLUS "+") (.literal (.numL 3)))))] :=
  ⟨rfl, rfl⟩

/-! ## C5 — ternary evaluation -/

/-- C5 counterexample.  The claim says `c ? t : e` decides by Lox
truthiness (so `0` is truthy) and evaluates only the selected arm.
The code returns the *else* arm for condition `0` (JavaScript
`Boolean(0)` is `false` although `0` is Lox-truthy), and evaluates
the non-selected arm: with a true condition, a division by zero in
the else arm still raises. -/
theorem c5_counterexample :
    Interp.evalExpr 10 noLocals Interp.initSt 0
        (.ternary (.literal (.numL 0)) (.literal (.strL "a"))
          (.literal (.strL "b")))
      = .ok (.vstr "b", Interp.initSt) ∧
    Interp.isTruthy (.vnum (some 0)) = true ∧
    Interp.evalExpr 10 noLocals Interp.initSt 0
        (.ternary (.literal (.boolL true)) (.literal (.numL 1))
          (.binary (.literal (.numL 1)) (tk .SLASH "/") (.literal (.numL 0))))
      = .error (.sig (.rte (tk .SLASH "/") "Cannot divide by 0")
          Interp.initSt) :=
  ⟨rfl, rfl, rfl⟩

/-- C5 as amended: `visitTernaryExpr` evaluates the condition and then
*both* arms unconditionally (an exception in either arm propagates,
even from the arm that is not selected), and selects by JavaScript
boolean coercion of the condition — under which `0`, `NaN` and `""`
are falsey, although Lox truthiness makes them truthy. -/
theorem c5_amended_ternary :
    (∀ (fuel : Nat) (L : Interp.Locals) (σ : St) (e : Nat)
      (c t el : Literal'),
      Interp.evalExpr (fuel + 2) L σ e
          (.ternary (.literal c) (.literal t) (.literal el)) =
        .ok (if Interp.jsBooleanCoerce (Interp.litToValue c) then
               Interp.litToValue t
             else Interp.litToValue el, σ)) ∧
    (∀ (fuel : Nat) (L : Interp.Locals) (σ : St) (e : Nat) (c t : Literal'),
      Interp.evalExpr (fuel + 3) L σ e
          (.ternary (.literal c) (.literal t)
            (.binary (.literal (.numL 1)) (tk .SLASH "/")
              (.literal (.numL 0)))) =
        .error (.sig (.rte (tk .SLASH "/") "Cannot divide by 0") σ)) ∧
    Interp.jsBooleanCoerce (.vnum (some 0)) = false ∧
    Interp.isTruthy (.vnum (some 0)) = true ∧
    Interp.jsBooleanCoerce (.vstr "") = false ∧
    Interp.isTruthy (.vstr "") = true := by
  refine ⟨?_, ?_, rfl, rfl, rfl, rfl⟩
  · intro fuel L σ e c t el
    rw [show fuel + 2 = (fuel + 1) + 1 from rfl]
    simp only [evalExpr_ternary_step, evalExpr_literal, exceptBind_ok]
  · intro fuel L σ e c t
    rw [show fuel + 3 = (fuel + 1 + 1) + 1 from rfl]
    simp only [evalExpr_ternary_step, evalExpr_binary_step, evalExpr_literal,
      exceptBind_ok]
    rfl

/-! ## C6 — numeric operand checks -/

/-- C6 counterexample.  The claim says unary `-` and binary `-` raise
"Operand must be a number." on any non-number operand.  The code's
unary `-` performs no check at all (`-true` evaluates to `-1`),
binary `-` checks only the right operand (`true - 1` evaluates to
`0`), and the check that does exist raises the message
"Operator must be a number." (sic), not "Operand...". -/
theorem c6_counterexample :
    Interp.evalExpr 10 noLocals Interp.initSt 0
        (.unary (tk .MINUS "-") (.literal (.boolL true)))
      = .ok (.vnum (some (-1)), Interp.initSt) ∧
    (∃ q : JsNum, Interp.evalExpr 10 noLocals Interp.initSt 0
        (.binary (.literal (.boolL true)) (tk .MINUS "-")
          (.literal (.numL 1)))
      = .ok (.vnum q, Interp.initSt)) ∧
    Interp.binaryOp (tk .STAR "*") (.vbool true) (.vnum (some 1)) Interp.initSt
      = .error (.rte (tk .STAR "*") "Operator must be a number.") :=
  ⟨rfl, ⟨_, rfl⟩, rfl⟩

/-- C6 as amended: `*`, `/`, `<`, `<=`, `>`, `>=` raise a runtime error
whenever either operand is not a number, and binary `-` whenever its
*right* operand is not a number — all with the message
"Operator must be a number." (sic); binary `-` with a numeric right
operand performs no check on the left (it is `Number(...)`-coerced),
unary `-` performs no check at all; `/` with numeric operands and a
zero right operand raises "Cannot divide by 0". -/
theorem c6_amended_operand_checks :
    (∀ (op : Token) (l r : LoxValue) (σ : St),
      (op.type = .STAR ∨ op.type = .LESS ∨ op.type = .LESS_EQUAL ∨
        op.type = .GREATER ∨ op.type = .GREATER_EQUAL ∨ op.type = .SLASH) →
      ¬ (isNumV l = true ∧ isNumV r = true) →
      Interp.binaryOp op l r σ =
        .error (.rte op "Operator must be a number.")) ∧
    (∀ (op : Token) (l r : LoxValue) (σ : St), op.type = .MINUS →
      isNumV r = false →
      Interp.binaryOp op l r σ =
        .error (.rte op "Operator must be a number.")) ∧
    (∀ (op : Token) (l : LoxValue) (n : JsNum) (σ : St), op.type = .MINUS →
      Interp.binaryOp op l (.vnum n) σ =
        .ok (.vnum (Interp.jsSub (Interp.jsToNumber l) n))) ∧
    (∀ (op : Token) (r : LoxValue), op.type = .MINUS →
      Interp.unaryOp op r = .vnum (Interp.jsNeg (Interp.jsToNumber r))) ∧
    (∀ (op : Token) (l : LoxValue) (σ : St), op.type = .SLASH →
      isNumV l = true →
      Interp.binaryOp op l (.vnum (some 0)) σ =
        .error (.rte op "Cannot divide by 0")) := by
  refine ⟨?_, ?_, ?_, ?_, ?_⟩
  · intro op l r σ hop hnn
    rcases hop with h | h | h | h | h | h <;>
      cases l <;> cases r <;>
        simp_all [Interp.binaryOp, Interp.checkNumberOperands, isNumV]
  · intro op l r σ hop hr
    cases r <;>
      simp_all [Interp.binaryOp, Interp.checkNumberOperand, isNumV]
  · intro op l n σ hop
    simp [Interp.binaryOp, hop, Interp.checkNumberOperand, Interp.jsToNumber]
  · intro op r hop
    simp [Interp.unaryOp, hop]
  · intro op l σ hop hl
    cases l <;>
      simp_all [Interp.binaryOp, Interp.checkNumberOperands, isNumV,
        Interp.jsToNumber]

/-- Witness for C6's quantified parts at concrete operands. -/
theorem c6_witness :
    Interp.binaryOp (tk .LESS "<") (.vnum (some 1)) (.vbool true)
        Interp.initSt
      = .error (.rte (tk .LESS "<") "Operator must be a number.") ∧
    Interp.binaryOp (tk .MINUS "-") (.vnum (some 1)) (.vstr "x") Interp.initSt
      = .error (.rte (tk .MINUS "-") "Operator must be a number.") ∧
    Interp.binaryOp (tk .MINUS "-") (.vbool true) (.vnum (some 1))
        Interp.initSt
      = .ok (.vnum (Interp.jsSub (Interp.jsToNumber (.vbool true)) (some 1))) ∧
    Interp.unaryOp (tk .MINUS "-") (.vbool true)
      = .vnum (Interp.jsNeg (Interp.jsToNumber (.vbool true))) ∧
    Interp.binaryOp (tk .SLASH "/") (.vnum (some 1)) (.vnum (some 0))
        Interp.initSt
      = .error (.rte (tk .SLASH "/") "Cannot divide by 0") :=
  ⟨c6_amended_operand_checks.1 (tk .LESS "<") (.vnum (some 1)) (.vbool true)
      Interp.initSt (Or.inr (Or.inl rfl)) (by decide),
   c6_amended_operand_checks.2.1 (tk .MINUS "-") (.vnum (some 1)) (.vstr "x")
      Interp.initSt rfl (by decide),
   c6_amended_operand_checks.2.2.1 (tk .MINUS "-") (.vbool true) (some 1)
      Interp.initSt rfl,
   c6_amended_operand_checks.2.2.2.1 (tk .MINUS "-") (.vbool true) rfl,
   c6_amended_operand_checks.2.2.2.2 (tk .SLASH "/") (.vnum (some 1))
      Interp.initSt rfl (by decide)⟩

/-! ## C4 — hop-counted variable access -/

/-- C4 counterexample.  The claim says every `Variable`/`This`/`Super`/
`Assign` expression without a hop-count entry falls through to the
globals frame, a missing global raising "Undefined variable 'x'."
A `Super` expression without an entry instead raises
"Super expression not found" (first conjunct) — there is no globals
fall-through for `super`; and the globals-read error message carries
no trailing period (second conjunct), unlike the claim's quoted
message. -/
theorem c4_counterexample :
    Interp.evalExpr 10 noLocals Interp.initSt 0
        (.superE (tk .SUPER "super") (tk .IDENTIFIER "m"))
      = .error (.sig (.rte (tk .SUPER "super") "Super expression not found")
          Interp.initSt) ∧
    Interp.evalExpr 10 noLocals Interp.initSt 0
        (.variableE (tk .IDENTIFIER "nosuch"))
      = .error (.sig (.rte (tk .IDENTIFIER "nosuch")
          "Undefined variable 'nosuch'") Interp.initSt) :=
  ⟨rfl, rfl⟩

/-- C4 as amended.  For `Variable`/`This`/`Assign` expressions the
claim's rule holds: a hop-count entry `d` makes the evaluator
read/write the name in the frame exactly `d` enclosing links up
(0 = the current frame); with no entry the lookup goes to the globals
frame, where a missing name raises "Undefined variable 'x'" — without
a trailing period on reads, with one on assignments.  For `Super`
expressions the rule differs: a *missing or zero* hop-count entry
raises "Super expression not found" (never a globals fall-through),
and an entry `d + 1` reads `super` at `d + 1` hops and `this` at `d`
hops, binding the found method to that instance. -/
theorem c4_amended_variable_access :
    (∀ (L : Interp.Locals) (σ : St) (ids : List Nat) (name : Token)
      (expr : Expr) (fuel d : Nat),
      L expr = some d → isChainB σ ids = true → d < ids.length →
      Interp.lookUpVariable fuel L σ (ids.getD 0 0) name expr =
        .ok ((recGet (σ.frame (ids.getD d 0)).values name.lexeme).getD .vundefined,
             σ)) ∧
    (∀ (L : Interp.Locals) (σ : St) (name : Token) (expr : Expr)
      (fuel e : Nat) (v : LoxValue),
      L expr = none → recGet (σ.frame 0).values name.lexeme = some v →
      Interp.lookUpVariable (fuel + 1) L σ e name expr = .ok (v, σ)) ∧
    (∀ (L : Interp.Locals) (σ : St) (name : Token) (expr : Expr)
      (fuel e : Nat),
      L expr = none → recGet (σ.frame 0).values name.lexeme = none →
      (σ.frame 0).enclosing = none →
      Interp.lookUpVariable (fuel + 1) L σ e name expr =
        .error (.sig (.rte name s!"Undefined variable '{name.lexeme}'") σ)) ∧
    (∀ (fuel : Nat) (L : Interp.Locals) (σ : St) (e : Nat) (name : Token),
      Interp.evalExpr (fuel + 1) L σ e (.variableE name) =
        Interp.lookUpVariable fuel L σ e name (.variableE name) ∧
      Interp.evalExpr (fuel + 1) L σ e (.thisE name) =
        Interp.lookUpVariable fuel L σ e name (.thisE name)) ∧
    (∀ (L : Interp.Locals) (σ : St) (ids : List Nat) (name : Token)
      (lit : Literal') (fuel d : Nat),
      L (.assign name (.literal lit)) = some d → isChainB σ ids = true →
      d < ids.length →
      Interp.evalExpr (fuel + 2) L σ (ids.getD 0 0)
          (.assign name (.literal lit)) =
        .ok (Interp.litToValue lit,
          σ.setFrame (ids.getD d 0) { σ.frame (ids.getD d 0) with
            values := recSet (σ.frame (ids.getD d 0)).values name.lexeme
              (Interp.litToValue lit) })) ∧
    (∀ (L : Interp.Locals) (σ : St) (name : Token) (lit : Literal')
      (fuel e : Nat),
      L (.assign name (.literal lit)) = none →
      recGet (σ.frame 0).values name.lexeme = none →
      (σ.frame 0).enclosing = none →
      Interp.evalExpr (fuel + 2) L σ e (.assign name (.literal lit)) =
        .error (.sig (.rte name s!"Undefined variable '{name.lexeme}'.") σ)) ∧
    (∀ (L : Interp.Locals) (σ : St) (e : Nat) (kw mth : Token)
      (fuel d : Nat) (c : LoxClass) (i : Nat) (m : LoxFunction),
      L (.superE kw mth) = some (d + 1) →
      Environment.getAt σ e (d + 1) "super" = some (.vclass c) →
      Environment.getAt σ e d "this" = some (.vinst i) →
      c.findMethod mth.lexeme = some m →
      Interp.evalExpr (fuel + 1) L σ e (.superE kw mth) =
        .ok (.vfun ⟨m.declaration, σ.envs.length, m.isInitializer⟩,
          { σ with envs := σ.envs ++ [⟨[("this", .vinst i)], some m.closure⟩] })) ∧
    (∀ (L : Interp.Locals) (σ : St) (e : Nat) (kw mth : Token) (fuel : Nat),
      L (.superE kw mth) = none ∨ L (.superE kw mth) = some 0 →
      Interp.evalExpr (fuel + 1) L σ e (.superE kw mth) =
        .error (.sig (.rte kw "Super expression not found") σ)) := by
  refine ⟨?_, ?_, ?_, ?_, ?_, ?_, ?_, ?_⟩
  · intro L σ ids name expr fuel d hL hc hlen
    unfold Interp.lookUpVariable
    rw [hL]
    simp only [getAt_chain σ d ids name.lexeme hc hlen]
  · intro L σ name expr fuel e v hL hv
    unfold Interp.lookUpVariable
    rw [hL]
    simp [Environment.envGet, hv]
  · intro L σ name expr fuel e hL hv henc
    unfold Interp.lookUpVariable
    rw [hL]
    simp [Environment.envGet, hv, henc]
  · intro fuel L σ e name
    exact ⟨rfl, rfl⟩
  · intro L σ ids name lit fuel d hL hc hlen
    rw [show fuel + 2 = (fuel + 1) + 1 from rfl]
    simp only [Interp.evalExpr, Interp.mkEval, exceptBind_ok]
    rw [hL]
    simp only [assignAt_chain σ d ids name.lexeme (Interp.litToValue lit) hc
      hlen]
  · intro L σ name lit fuel e hL hv henc
    rw [show fuel + 2 = (fuel + 1) + 1 from rfl]
    simp only [Interp.evalExpr, Interp.mkEval, exceptBind_ok]
    rw [hL]
    simp [Environment.envAssign, hv, henc]
  · intro L σ e kw mth fuel d c i m hL hsuper hthis hfind
    simp only [Interp.evalExpr, Interp.mkEval]
    rw [hL]
    simp only [Nat.add_sub_cancel]
    rw [hsuper]
    simp only []
    rw [hthis, hfind]
    rfl
  · intro L σ e kw mth fuel hL
    rcases hL with h | h <;>
      · simp only [Interp.evalExpr, Interp.mkEval]
        rw [h]

/-- Witness for C4's quantified parts: reads and writes on the concrete
chained stores `σW` / `σS`. -/
theorem c4_witness :
    Interp.lookUpVariable 5 LW σW 2 (tk .IDENTIFIER "mid")
        (.variableE (tk .IDENTIFIER "mid")) =
      .ok ((recGet (σW.frame 1).values "mid").getD .vundefined, σW) ∧
    Interp.lookUpVariable 5 LW σW 0 (tk .IDENTIFIER "g")
        (.variableE (tk .IDENTIFIER "g")) = .ok (.vstr "G", σW) ∧
    Interp.lookUpVariable 5 LW σW 0 (tk .IDENTIFIER "nosuch")
        (.variableE (tk .IDENTIFIER "nosuch")) =
      .error (.sig (.rte (tk .IDENTIFIER "nosuch")
        "Undefined variable 'nosuch'") σW) ∧
    Interp.evalExpr 7 LW σW 2 (.assign (tk .IDENTIFIER "x")
        (.literal (.strL "new"))) =
      .ok (.vstr "new", σW.setFrame 2 { σW.frame 2 with
        values := recSet (σW.frame 2).values "x" (.vstr "new") }) ∧
    Interp.evalExpr 7 LW σW 0 (.assign (tk .IDENTIFIER "qq")
        (.literal .nilL)) =
      .error (.sig (.rte (tk .IDENTIFIER "qq")
        "Undefined variable 'qq'.") σW) ∧
    Interp.evalExpr 5 LW σS 2 (.superE (tk .SUPER "super")
        (tk .IDENTIFIER "greet")) =
      .ok (.vfun ⟨fA.declaration, σS.envs.length, fA.isInitializer⟩,
        { σS with envs := σS.envs ++
            [⟨[("this", .vinst 0)], some fA.closure⟩] }) ∧
    Interp.evalExpr 5 noLocals σW 0 (.superE (tk .SUPER "super")
        (tk .IDENTIFIER "m")) =
      .error (.sig (.rte (tk .SUPER "super") "Super expression not found")
        σW) := by
  refine ⟨?_, ?_, ?_, ?_, ?_, ?_, ?_⟩
  · exact c4_amended_variable_access.1 LW σW [2, 1, 0] (tk .IDENTIFIER "mid")
      (.variableE (tk .IDENTIFIER "mid")) 5 1 rfl (by decide) (by decide)
  · exact c4_amended_variable_access.2.1 LW σW (tk .IDENTIFIER "g")
      (.variableE (tk .IDENTIFIER "g")) 4 0 (.vstr "G") rfl rfl
  · exact c4_amended_variable_access.2.2.1 LW σW (tk .IDENTIFIER "nosuch")
      (.variableE (tk .IDENTIFIER "nosuch")) 4 0 rfl rfl rfl
  · exact c4_amended_variable_access.2.2.2.2.1 LW σW [2, 1, 0]
      (tk .IDENTIFIER "x") (.strL "new") 5 0 rfl (by decide) (by decide)
  · exact c4_amended_variable_access.2.2.2.2.2.1 LW σW (tk .IDENTIFIER "qq")
      .nilL 5 0 rfl rfl rfl
  · exact c4_amended_variable_access.2.2.2.2.2.2.1 LW σS 2 (tk .SUPER "super")
      (tk .IDENTIFIER "greet") 4 0 clsA 0 fA rfl rfl rfl rfl
  · exact c4_amended_variable_access.2.2.2.2.2.2.2 noLocals σW 0
      (tk .SUPER "super") (tk .IDENTIFIER "m") 4 (Or.inl rfl)

/-! ## C7 — assignment targets -/

/-- C7 counterexample.  The claim says a property-access left side
`Get(object, name)` produces a `Set` node, so `p.x = 1;` is accepted.
The source's `assignment` has no `Get` case at all: parsing
`p.x = 1;` reports "Invalid assignment target" (non-throwing) and
returns the bare `Get` expression — no `Set` node exists in the
parser. -/
theorem c7_counterexample :
    Parser.parse toksC7 =
      .ok ([some (.expression (.get (.variableE (tk .IDENTIFIER "p"))
              (tk .IDENTIFIER "x")))],
           ⟨toksC7, 6, ["Invalid assignment target"]⟩) := rfl

/-- C7 as amended: after consuming `=` and parsing the right side, a
`Variable` left side produces `Assign(name, value)`; *every* other
left side — property accesses `Get(object, name)` included — is
reported as "Invalid assignment target" at the `=` token without an
exception, and the left expression is returned unchanged. -/
theorem c7_amended_assignment_target :
    (∀ (fuel : Nat) (st st1 st2 st3 : Parser.PSt) (obj : Expr)
      (nameTok : Token) (value : Expr),
      Parser.orP fuel st = .ok (.get obj nameTok, st1) →
      Parser.matchT [.EQUAL] st1 = (true, st2) →
      Parser.assignment fuel st2 = .ok (value, st3) →
      Parser.assignment (fuel + 1) st =
        .ok (.get obj nameTok,
          { st3 with reports := st3.reports ++ ["Invalid assignment target"] })) ∧
    (∀ (fuel : Nat) (st st1 st2 st3 : Parser.PSt) (nameTok : Token)
      (value : Expr),
      Parser.orP fuel st = .ok (.variableE nameTok, st1) →
      Parser.matchT [.EQUAL] st1 = (true, st2) →
      Parser.assignment fuel st2 = .ok (value, st3) →
      Parser.assignment (fuel + 1) st = .ok (.assign nameTok value, st3)) := by
  constructor
  · intro fuel st st1 st2 st3 obj nameTok value h1 h2 h3
    simp only [Parser.orP] at h1
    simp only [Parser.assignment] at h3 ⊢
    simp only [Parser.mkExprP, h1, exceptBind_ok, h2, h3]
    by_cases hp : (Parser.previous st2).type = .EOF <;>
      simp [Parser.mkError, hp]
  · intro fuel st st1 st2 st3 nameTok value h1 h2 h3
    simp only [Parser.orP] at h1
    simp only [Parser.assignment] at h3 ⊢
    simp only [Parser.mkExprP, h1, exceptBind_ok, h2, h3]
    simp

/-- Witness for C7's quantified parts on the tokens of `p.x = 1;` and
of `a = 2;`. -/
theorem c7_witness :
    Parser.assignment 21 ⟨toksC7, 0, []⟩ =
      .ok (.get (.variableE (tk .IDENTIFIER "p")) (tk .IDENTIFIER "x"),
        { (⟨toksC7, 5, []⟩ : Parser.PSt) with
            reports := ([] : List String) ++ ["Invalid assignment target"] }) ∧
    Parser.assignment 21
        ⟨[tk .IDENTIFIER "a", tk .EQUAL "=",
          ⟨.NUMBER, "2", some (.num 2), 1⟩, tk .SEMICOLON ";", tk .EOF ""],
         0, []⟩ =
      .ok (.assign (tk .IDENTIFIER "a") (.literal (.numL 2)),
        ⟨[tk .IDENTIFIER "a", tk .EQUAL "=",
          ⟨.NUMBER, "2", some (.num 2), 1⟩, tk .SEMICOLON ";", tk .EOF ""],
         3, []⟩) :=
  ⟨c7_amended_assignment_target.1 20 ⟨toksC7, 0, []⟩ ⟨toksC7, 3, []⟩
      ⟨toksC7, 4, []⟩ ⟨toksC7, 5, []⟩ (.variableE (tk .IDENTIFIER "p"))
      (tk .IDENTIFIER "x") (.literal (.numL 1)) rfl rfl rfl,
   c7_amended_assignment_target.2 20
      ⟨[tk .IDENTIFIER "a", tk .EQUAL "=",
        ⟨.NUMBER, "2", some (.num 2), 1⟩, tk .SEMICOLON ";", tk .EOF ""], 0, []⟩
      ⟨[tk .IDENTIFIER "a", tk .EQUAL "=",
        ⟨.NUMBER, "2", some (.num 2), 1⟩, tk .SEMICOLON ";", tk .EOF ""], 1, []⟩
      ⟨[tk .IDENTIFIER "a", tk .EQUAL "=",
        ⟨.NUMBER, "2", some (.num 2), 1⟩, tk .SEMICOLON ";", tk .EOF ""], 2, []⟩
      ⟨[tk .IDENTIFIER "a", tk .EQUAL "=",
        ⟨.NUMBER, "2", some (.num 2), 1⟩, tk .SEMICOLON ";", tk .EOF ""], 3, []⟩
      (tk .IDENTIFIER "a") (.literal (.numL 2)) rfl rfl rfl⟩

/-! ## C8 — class declarations and superclasses -/

/-- C8 counterexample.  The claim says the parser accepts an optional
`<` superclass clause, so `class B < A { ... }` parses without a
syntax error.  The source's `classDeclaration` consumes the class
name and immediately requires `{`: on `class B < A { }` it reports
the syntax error "Expect '{' before class body.", panic-recovery
synchronizes, and the program parses to a single `null` statement. -/
theorem c8_counterexample :
    Parser.parse toksC8 =
      .ok ([none], ⟨toksC8, 6, ["Expect '\x7b' before class body."]⟩) := rfl

/-- C8 as amended: a class declaration has *no* superclass clause.
After the class name the parser requires `{` — any other token
(such as `<`) raises the thrown parse error
"Expect '{' before class body." — and a well-formed declaration
produces a class statement whose superclass slot is always absent. -/
theorem c8_amended_class_decl :
    (∀ (fuel : Nat) (st st1 : Parser.PSt) (nameTok : Token),
      Parser.consume .IDENTIFIER "Expect class name." st = .ok (nameTok, st1) →
      Parser.checkT .LEFT_BRACE st1 = false →
      ∃ e st', Parser.classDeclaration (fuel + 1) st = .error (.thrown e st') ∧
        e.message = "Expect '\x7b' before class body.") ∧
    Parser.classDeclaration 10 ⟨toksC8ok, 1, []⟩ =
      .ok (.classDecl (tk .IDENTIFIER "C") none [], ⟨toksC8ok, 4, []⟩) := by
  constructor
  · intro fuel st st1 nameTok h1 h2
    simp only [Parser.classDeclaration, Parser.mkStmtP, h1, exceptBind_ok,
      consume_fail _ _ _ h2, exceptBind_err]
    refine ⟨_, _, rfl, ?_⟩
    by_cases hp : (Parser.peek st1).type = .EOF <;> simp [Parser.mkError, hp]
  · rfl

/-- Witness for C8's quantified part on the tokens of `class B < A { }`. -/
theorem c8_witness :
    ∃ e st', Parser.classDeclaration 10 ⟨toksC8, 1, []⟩ =
      .error (.thrown e st') ∧
      e.message = "Expect '\x7b' before class body." :=
  c8_amended_class_decl.1 9 ⟨toksC8, 1, []⟩ ⟨toksC8, 2, []⟩
    (tk .IDENTIFIER "B") rfl rfl

/-! ## C9 — block comments -/

/-- C9.  The claim says "Unterminated comment." is reported exactly
when end of input is reached with the comment depth still positive,
and that every properly terminated block comment — including `/**/`
and the nested `/* /* */ */` — scans without error.  In the code the
report fires whenever the comment scan *stops at end of input*, and
the `*/`-recognition mis-steps when the scan lands on the `*`
directly: both `/**/` and `/* /* */ */`, though properly terminated,
report "Unterminated comment." (first two conjuncts).  The spec's
own nested scenario, whose comment is followed by further input,
does scan cleanly with zero tokens before `print` (third
conjunct). -/
theorem c9_block_comment_eof_error :
    Scanner.scanTokens "/**/" =
      some ([⟨.EOF, "", none, 1⟩], ["Unterminated comment."]) ∧
    Scanner.scanTokens "/* /* */ */" =
      some ([⟨.EOF, "", none, 1⟩], ["Unterminated comment."]) ∧
    Scanner.scanTokens "/* a /* b */ c */ print 1;" =
      some ([⟨.PRINT, "print", none, 1⟩, ⟨.NUMBER, "1", some (.num 1), 1⟩,
             ⟨.SEMICOLON, ";", none, 1⟩, ⟨.EOF, "", none, 1⟩], []) :=
  ⟨rfl, rfl, rfl⟩
